import Mathlib

/-!
Verification of the changelog reconciliation engine of the
`changelog-extension` browser extension, embedded shallowly from
`src/lib/api.ts` and `src/background/index.ts`.

Strings are modelled as `List Char`.  The JavaScript regular-expression
operations used by the source are modelled by small executable scanners with
the same first-match semantics (leftmost match; lazy bodies stop at the first
occurrence of the closing token; `/i` flags become case-insensitive character
comparison, `String.prototype.includes` stays case-sensitive).  Instants are
modelled at calendar resolution by the `JsDate` structure whose `key` is a
strictly monotone encoding of (year, month, day, hour, minute, second); this
preserves every chronological comparison the source performs.  Time zones are
not modelled: every parse is taken as UTC, which is faithful for the
comparisons below because they are all more than one day apart.
-/

/-- Shorthand: the character list of a string literal. -/
def str (s : String) : List Char := s.toList

/-- Decimal digit character for `n % 10`, written out so that proofs about
digit characters go through `decide`. -/
def dig (n : Nat) : Char :=
  match n % 10 with
  | 0 => '0' | 1 => '1' | 2 => '2' | 3 => '3' | 4 => '4'
  | 5 => '5' | 6 => '6' | 7 => '7' | 8 => '8' | _ => '9'

/-- Numeric value of a digit character (JS `parseInt` on a single digit). -/
def digitVal (c : Char) : Nat := c.toNat - 48

/-- `c` is an ASCII decimal digit. -/
def isDig (c : Char) : Bool := '0' ≤ c && c ≤ '9'

/-- Whitespace for the purposes of JS `String.prototype.trim` and `\s`. -/
def isWs (c : Char) : Bool := c = ' ' || c = '\t' || c = '\n' || c = '\r'

/-- JS `String.prototype.trim`. -/
def trimChars (s : List Char) : List Char :=
  ((s.dropWhile isWs).reverse.dropWhile isWs).reverse

/-- Case-insensitive character comparison, modelling the `/i` regex flag
(ASCII folding, which covers every pattern the source uses). -/
def lowerEq (a b : Char) : Bool := a.toLower == b.toLower

/-- Case-sensitive character comparison (plain regexes and `includes`). -/
def charEq (a b : Char) : Bool := a == b

/-- `pat` is a prefix of `s` under the character comparison `f`. -/
def isPrefixBy (f : Char → Char → Bool) : List Char → List Char → Bool
  | [], _ => true
  | _ :: _, [] => false
  | p :: ps, c :: cs => f p c && isPrefixBy f ps cs

/-- Split `s` at the first occurrence of `pat` (under comparison `f`):
returns the part before the match and the part after it.  This is the
engine behind every `match`/`exec`/`replace` on a literal token. -/
def splitAtSubBy (f : Char → Char → Bool) (pat : List Char) :
    List Char → Option (List Char × List Char)
  | [] => if pat = [] then some ([], []) else none
  | c :: cs =>
    if isPrefixBy f pat (c :: cs) then some ([], (c :: cs).drop pat.length)
    else match splitAtSubBy f pat cs with
      | some (pre, post) => some (c :: pre, post)
      | none => none

/-- First occurrence of `pat` in `s`, case-insensitively. -/
def splitAtSubCI (pat s : List Char) : Option (List Char × List Char) :=
  splitAtSubBy lowerEq pat s

/-- Case-sensitive `String.prototype.includes`. -/
def containsSub (pat s : List Char) : Bool :=
  (splitAtSubBy charEq pat s).isSome

/-- Case-insensitive containment (a regex with `/i` matches somewhere). -/
def containsSubCI (pat s : List Char) : Bool :=
  (splitAtSubCI pat s).isSome

/-- Model of the regex fragment `<name[^>]*>` with `/i`: find the first
case-insensitive occurrence of `<name`, then consume up to and including the
first `>` after it.  Returns the text before the match and the text after
the closing `>`.  (If no `>` follows the first occurrence of `<name`, no
later occurrence can complete a match either, so the whole search fails,
exactly as for the regex.) -/
def splitTagOpenCI (name : List Char) (s : List Char) :
    Option (List Char × List Char) :=
  match splitAtSubCI ('<' :: name) s with
  | none => none
  | some (pre, rest) =>
    match splitAtSubBy charEq ['>'] rest with
    | none => none
    | some (_, post) => some (pre, post)

/-- Leading run of decimal digits of `s`, capped at `max` characters, with
the rest of the string: models the date-fns parse regex `^\d{1,max}`. -/
def takeDigits (max : Nat) : List Char → List Char × List Char
  | [] => ([], [])
  | c :: cs =>
    match max with
    | 0 => ([], c :: cs)
    | m + 1 =>
      if isDig c then
        let (run, rest) := takeDigits m cs
        (c :: run, rest)
      else ([], c :: cs)

/-- Numeric value of a digit list (big-endian), as `parseInt` computes it. -/
def digitsVal (l : List Char) : Nat :=
  l.foldl (fun a c => a * 10 + digitVal c) 0

/-- Decimal digits of `n`, fuelled so that kernel reduction works. -/
def natCharsAux : Nat → Nat → List Char → List Char
  | 0, _, acc => acc
  | f + 1, n, acc =>
    if n < 10 then dig n :: acc
    else natCharsAux f (n / 10) (dig n :: acc)

/-- Decimal rendering of a natural number (JS number-to-string for the
integers the source handles). -/
def natChars (n : Nat) : List Char := natCharsAux (n + 1) n []

/-- Two-digit zero-padded rendering (`padStart(2, "0")` in the source). -/
def pad2 (n : Nat) : List Char :=
  if n < 10 then '0' :: natChars n else natChars n

/-- Four-digit zero-padded rendering (ISO year). -/
def pad4 (n : Nat) : List Char :=
  if n < 10 then '0' :: '0' :: '0' :: natChars n
  else if n < 100 then '0' :: '0' :: natChars n
  else if n < 1000 then '0' :: natChars n
  else natChars n

/-! ## Dates

`JsDate` models a valid JavaScript `Date` at second resolution; an invalid
date (`NaN` internal value) is modelled as `none` at use sites.  `key` is a
strictly monotone encoding of the calendar tuple, so every `<`/`>` the
source performs on dates is preserved. -/

structure JsDate where
  year : Nat
  month : Nat
  day : Nat
  hour : Nat
  minute : Nat
  second : Nat
deriving DecidableEq, Repr

/-- Strictly monotone encoding of the calendar tuple; used for every
comparison of two dates. -/
def JsDate.key (d : JsDate) : Nat :=
  ((((d.year * 1000 + d.month * 50 + d.day) * 24 + d.hour) * 60 + d.minute)
      * 60 + d.second)

/-- Date at midnight. -/
def mkDate (y m d : Nat) : JsDate := ⟨y, m, d, 0, 0, 0⟩

/-- Gregorian leap year. -/
def isLeap (y : Nat) : Bool :=
  (y % 4 = 0 && y % 100 ≠ 0) || y % 400 = 0

/-- Days in a month (month is 1-based). -/
def daysInMonth (y m : Nat) : Nat :=
  if m = 2 then (if isLeap y then 29 else 28)
  else if m = 4 || m = 6 || m = 9 || m = 11 then 30
  else 31

/-- The tuple is a valid calendar date (what date-fns `isValid` checks after
a strict parse, and what the native parser checks for its numeric forms). -/
def validYMD (y m d : Nat) : Bool :=
  1 ≤ y && 1 ≤ m && m ≤ 12 && 1 ≤ d && d ≤ daysInMonth y m

/-- Comparison used by the table filter: JS `a > b` on dates, where either
side may be an invalid date (`none`); any comparison against an invalid
date is false (`NaN` semantics). -/
def jsGt (a b : Option JsDate) : Bool :=
  match a, b with
  | some x, some y => y.key < x.key
  | _, _ => false

/-- date-fns `compareDesc` on two valid dates: negative when the first is
later, positive when earlier, zero when equal. -/
def compareDesc (a b : JsDate) : Int :=
  if b.key < a.key then -1 else if a.key < b.key then 1 else 0

/-- Expect a literal character at the head of the input. -/
def expectChar (c : Char) : List Char → Option (List Char)
  | x :: xs => if x = c then some xs else none
  | [] => none

/-- Modelled from the spec: the "locale-agnostic generic parse" fallback of
§4.2 is the host JavaScript `new Date(string)` parser, which is not part of
this repository.  The model accepts an ISO date `YYYY-MM-DD`, optionally
followed by `Thh:mm`, `:ss`, a fractional part and a trailing `Z`. -/
def jsDateParseISO (s : List Char) : Option JsDate :=
  let (y4, r1) := takeDigits 4 s
  if y4.length ≠ 4 then none else
  match expectChar '-' r1 with
  | none => none
  | some r2 =>
    let (mo2, r3) := takeDigits 2 r2
    if mo2.length ≠ 2 then none else
    match expectChar '-' r3 with
    | none => none
    | some r4 =>
      let (d2, r5) := takeDigits 2 r4
      if d2.length ≠ 2 then none else
      let y := digitsVal y4
      let mo := digitsVal mo2
      let d := digitsVal d2
      if !validYMD y mo d then none else
      match r5 with
      | [] => some (mkDate y mo d)
      | 'T' :: r6 =>
        let (h2, r7) := takeDigits 2 r6
        if h2.length ≠ 2 then none else
        match expectChar ':' r7 with
        | none => none
        | some r8 =>
          let (mi2, r9) := takeDigits 2 r8
          if mi2.length ≠ 2 then none else
          let hh := digitsVal h2
          let mi := digitsVal mi2
          if 23 < hh || 59 < mi then none else
          let fin := fun (ss : Nat) (rest : List Char) =>
            if 59 < ss then none else
            match rest with
            | [] => some (⟨y, mo, d, hh, mi, ss⟩ : JsDate)
            | ['Z'] => some (⟨y, mo, d, hh, mi, ss⟩ : JsDate)
            | _ => none
          match r9 with
          | ':' :: r10 =>
            let (s2, r11) := takeDigits 2 r10
            if s2.length ≠ 2 then none else
            match r11 with
            | '.' :: r12 =>
              let (f3, r13) := takeDigits 3 r12
              if f3 = [] then none else fin (digitsVal s2) r13
            | _ => fin (digitsVal s2) r11
          | _ => fin 0 r9
      | _ => none

/-- Modelled from the spec: the host parser's month-first numeric form
`M/D/YYYY` (this is how Chrome's `new Date` reads slash dates, which is why
the day-first strings this codebase itself produces misparse there). -/
def jsDateParseSlash (s : List Char) : Option JsDate :=
  let (moD, r1) := takeDigits 2 s
  if moD = [] then none else
  match expectChar '/' r1 with
  | none => none
  | some r2 =>
    let (dD, r3) := takeDigits 2 r2
    if dD = [] then none else
    match expectChar '/' r3 with
    | none => none
    | some r4 =>
      let (yD, r5) := takeDigits 4 r4
      if yD = [] || r5 ≠ [] then none else
      let mo := digitsVal moD
      let d := digitsVal dD
      let y := digitsVal yD
      if validYMD y mo d then some (mkDate y mo d) else none

/-- Modelled from the spec: the host `new Date(string)` parser (generic
fallback of §4.2).  `none` models an Invalid Date. -/
def jsDateParse (s : List Char) : Option JsDate :=
  match jsDateParseISO s with
  | some d => some d
  | none => jsDateParseSlash s

/-- Component order of a date-fns format string in the source's list. -/
inductive DOrder where
  | dmy
  | mdy
  | ymd
deriving DecidableEq

/-- One date-fns `parse(cleanDate, fmt, new Date())` attempt.  A `dd`/`MM`
token matches one or two digits, `yyyy` one to four, `yy` exactly one or
two; the separator is a literal; the whole string must be consumed; the
result must be a valid calendar date, else date-fns yields an Invalid Date
and `isValid` rejects it. -/
def parseWithFormat (sep : Char) (ord : DOrder) (shortYear : Bool)
    (s : List Char) : Option JsDate :=
  match ord with
  | .ymd =>
    let (yD, r1) := takeDigits 4 s
    if yD = [] then none else
    match expectChar sep r1 with
    | none => none
    | some r2 =>
      let (moD, r3) := takeDigits 2 r2
      if moD = [] then none else
      match expectChar sep r3 with
      | none => none
      | some r4 =>
        let (dD, r5) := takeDigits 2 r4
        if dD = [] || r5 ≠ [] then none else
        let y := digitsVal yD
        let mo := digitsVal moD
        let d := digitsVal dD
        if validYMD y mo d then some (mkDate y mo d) else none
  | _ =>
    let (aD, r1) := takeDigits 2 s
    if aD = [] then none else
    match expectChar sep r1 with
    | none => none
    | some r2 =>
      let (bD, r3) := takeDigits 2 r2
      if bD = [] then none else
      match expectChar sep r3 with
      | none => none
      | some r4 =>
        let (yD, r5) := takeDigits (if shortYear then 2 else 4) r4
        if yD = [] || r5 ≠ [] then none else
        let yRaw := digitsVal yD
        let y := if shortYear then (if 75 < yRaw then 1900 + yRaw else 2000 + yRaw) else yRaw
        let d := if ord = .dmy then digitsVal aD else digitsVal bD
        let mo := if ord = .dmy then digitsVal bD else digitsVal aD
        if validYMD y mo d then some (mkDate y mo d) else none

/-- `parseTableDate` from `src/lib/api.ts`: try the fixed list of explicit
formats in order (day-first before month-first), then fall back to the
native parser; return `null` when nothing yields a valid date.  The two-digit
year pivot uses the source's reference year 2025 (date-fns resolves `yy`
relative to `new Date()`). -/
def parseTableDate (dateString : List Char) : Option JsDate :=
  if dateString = [] then none else
  let cleanDate := trimChars dateString
  match parseWithFormat '/' .dmy false cleanDate with
  | some d => some d
  | none =>
  match parseWithFormat '/' .mdy false cleanDate with
  | some d => some d
  | none =>
  match parseWithFormat '-' .dmy false cleanDate with
  | some d => some d
  | none =>
  match parseWithFormat '-' .mdy false cleanDate with
  | some d => some d
  | none =>
  match parseWithFormat '-' .ymd false cleanDate with
  | some d => some d
  | none =>
  match parseWithFormat '/' .dmy true cleanDate with
  | some d => some d
  | none =>
  match parseWithFormat '/' .mdy true cleanDate with
  | some d => some d
  | none => jsDateParse cleanDate

/-- The attempts of `parseTableDate` in source order, for stating its
characterisation. -/
def tableDateFormats (cleanDate : List Char) : List (Option JsDate) :=
  [parseWithFormat '/' .dmy false cleanDate,
   parseWithFormat '/' .mdy false cleanDate,
   parseWithFormat '-' .dmy false cleanDate,
   parseWithFormat '-' .mdy false cleanDate,
   parseWithFormat '-' .ymd false cleanDate,
   parseWithFormat '/' .dmy true cleanDate,
   parseWithFormat '/' .mdy true cleanDate]

/-! ## Version comparison -/

/-- First maximal run of digits in `s`, with the rest of the string. -/
def firstDigitRun : List Char → Option (List Char × List Char)
  | [] => none
  | c :: cs =>
    if isDig c then some (c :: cs.takeWhile isDig, cs.dropWhile isDig)
    else firstDigitRun cs

/-- Modelled from the spec: `coerce` of the semver library (a dependency,
not repository code): the first digit run becomes the major component,
followed by up to two further dot-separated digit runs; anything else,
including any pre-release text, is discarded.  (The library's 16-digit
component cap is not modelled; no input here approaches it.) -/
def coerce (s : List Char) : Option (Nat × Nat × Nat) :=
  match firstDigitRun s with
  | none => none
  | some (run, rest) =>
    let major := digitsVal run
    match rest with
    | '.' :: r2 =>
      let mrun := r2.takeWhile isDig
      if mrun = [] then some (major, 0, 0) else
      let minor := digitsVal mrun
      match r2.dropWhile isDig with
      | '.' :: r4 =>
        let prun := r4.takeWhile isDig
        if prun = [] then some (major, minor, 0)
        else some (major, minor, digitsVal prun)
      | _ => some (major, minor, 0)
    | _ => some (major, 0, 0)

/-- Sign of `a - b` on naturals. -/
def cmpNat (a b : Nat) : Int :=
  if a < b then -1 else if b < a then 1 else 0

/-- Modelled from the spec: semver `compare` on two coerced (hence
release-only) versions is componentwise numeric comparison. -/
def semverCompare (a b : Nat × Nat × Nat) : Int :=
  if a.1 ≠ b.1 then cmpNat a.1 b.1
  else if a.2.1 ≠ b.2.1 then cmpNat a.2.1 b.2.1
  else cmpNat a.2.2 b.2.2

/-- JS `parseInt` on one dot-separated part, with `NaN` mapped to 0 as the
source does. -/
def partToNat (p : List Char) : Nat :=
  digitsVal ((p.dropWhile isWs).takeWhile isDig)

/-- The fallback loop of `compareVersions`: compare numeric parts
left-to-right, missing parts read as 0. -/
def cmpParts : List Nat → List Nat → Int
  | [], [] => 0
  | [], b :: bs => if 0 < b then -1 else cmpParts [] bs
  | a :: as, [] => if 0 < a then 1 else cmpParts as []
  | a :: as, b :: bs =>
    if b < a then 1 else if a < b then -1 else cmpParts as bs

/-- `compareVersions` from `src/lib/api.ts`. -/
def compareVersions (version1 version2 : List Char) : Int :=
  if version1 = [] && version2 = [] then 0
  else if version1 = [] then -1
  else if version2 = [] then 1
  else
    match coerce version1, coerce version2 with
    | some v1, some v2 => semverCompare v1 v2
    | _, _ =>
      cmpParts ((version1.splitOn '.').map partToNat)
        ((version2.splitOn '.').map partToNat)

/-- `isNewerVersion` from `src/lib/api.ts`: note the source returns `true`
whenever either version is missing. -/
def isNewerVersion (version1 version2 : List Char) : Bool :=
  if version1 = [] || version2 = [] then true
  else 0 < compareVersions version1 version2

/-- Rendering of a §3 version identifier (dot-separated numerals); used to
quantify over well-formed versions in the theorems below. -/
def verStr : List Nat → List Char
  | [] => []
  | [n] => natChars n
  | n :: m :: rest => natChars n ++ '.' :: verStr (m :: rest)

/-- Characters a rendered version identifier consists of. -/
def isVerChar (c : Char) : Bool := isDig c || c = '.'

/-- `YYYY-MM-DD`, as `toISOString().split("T")[0]` produces (UTC model). -/
def isoDateString (d : JsDate) : List Char :=
  pad4 d.year ++ '-' :: pad2 d.month ++ '-' :: pad2 d.day

/-! ## Regex-shaped scanners used by the parsing helpers -/

/-- Global tag strip `replace(/<[^>]*>/g, "")`, fuelled (fuel ≥ length of
the input makes it total and kernel-reducible). -/
def stripTagsF : Nat → List Char → List Char
  | 0, s => s
  | _ + 1, [] => []
  | f + 1, c :: cs =>
    if c = '<' then
      match splitAtSubBy charEq ['>'] cs with
      | some (_, post) => stripTagsF f post
      | none => c :: cs
    else c :: stripTagsF f cs

/-- `replace(/<[^>]*>/g, "")` from the source's cell cleaners. -/
def stripTags (s : List Char) : List Char := stripTagsF (s.length + 1) s

/-- The capture of `/<h4[^>]*>(.*?)<\/h4>/i`: at each `<h4...>` in turn, the
lazy dot-capture runs to the first `</h4>` and must not contain a newline
(`.` does not match `\n`); otherwise the next `<h4...>` is tried. -/
def h4CaptureF : Nat → List Char → Option (List Char)
  | 0, _ => none
  | f + 1, s =>
    match splitTagOpenCI (str "h4") s with
    | none => none
    | some (_, afterOpen) =>
      match splitAtSubCI (str "</h4>") afterOpen with
      | none => none
      | some (cap, _) =>
        if cap.any (fun c => c = '\n') then h4CaptureF f afterOpen
        else some cap

/-- `extractVersionFromCell` from `src/lib/api.ts`. -/
def extractVersionFromCell (cellContent : List Char) : List Char :=
  match h4CaptureF (cellContent.length + 1) cellContent with
  | some cap => trimChars cap
  | none => trimChars (stripTags cellContent)

/-- One attempt of `/<time\s+datetime="([^"]+)"\s*\/?>/i` immediately after
an occurrence of `<time`. -/
def timeAttempt (rest : List Char) : Option (List Char) :=
  match rest with
  | c :: r1 =>
    if !isWs c then none else
    let r2 := r1.dropWhile isWs
    if isPrefixBy lowerEq (str "datetime=\"") r2 then
      match splitAtSubBy charEq ['"'] (r2.drop 10) with
      | none => none
      | some (cap, r4) =>
        if cap = [] then none else
        let r5 := r4.dropWhile isWs
        let r6 := match r5 with
          | '/' :: t => t
          | t => t
        match r6 with
        | '>' :: _ => some cap
        | _ => none
    else none
  | [] => none

/-- The capture of `/<time\s+datetime="([^"]+)"\s*\/?>/i`, scanning the
occurrences of `<time` left to right. -/
def timeCaptureF : Nat → List Char → Option (List Char)
  | 0, _ => none
  | f + 1, s =>
    match splitAtSubCI (str "<time") s with
    | none => none
    | some (_, rest) =>
      match timeAttempt rest with
      | some cap => some cap
      | none => timeCaptureF f rest

/-- `extractDateFromCell` from `src/lib/api.ts`: a `<time datetime="..."/>`
element is converted to `DD/MM/YYYY` for `parseTableDate`; otherwise the
cell is tag-stripped and trimmed. -/
def extractDateFromCell (cellContent : List Char) : List Char :=
  match timeCaptureF (cellContent.length + 1) cellContent with
  | some isoDate =>
    match jsDateParse isoDate with
    | some date =>
      pad2 date.day ++ '/' :: pad2 date.month ++ '/' :: natChars date.year
    | none => trimChars (stripTags cellContent)
  | none => trimChars (stripTags cellContent)

/-- The capture of `/#(\d+)/` followed by `parseInt`: the first `#` that is
followed by at least one digit, read as a number. -/
def findHashNumber : List Char → Option Nat
  | [] => none
  | '#' :: cs =>
    let run := cs.takeWhile isDig
    if run = [] then findHashNumber cs else some (digitsVal run)
  | _ :: cs => findHashNumber cs

/-- Characters allowed in the pre-release part of the version regex
(`[a-zA-Z0-9-]`). -/
def isAlnumDash (c : Char) : Bool := c.isAlpha || isDig c || c = '-'

/-- The capture `(\d+\.\d+(?:\.\d+)?(?:-[a-zA-Z0-9-]+)?)` matched at the
start of `s`. -/
def matchNum (s : List Char) : Option (List Char) :=
  let r1 := s.takeWhile isDig
  if r1 = [] then none else
  match s.dropWhile isDig with
  | '.' :: r2 =>
    let r3 := r2.takeWhile isDig
    if r3 = [] then none else
    let rest := r2.dropWhile isDig
    let p3 := match rest with
      | '.' :: r4 =>
        let r5 := r4.takeWhile isDig
        if r5 = [] then ([], rest) else ('.' :: r5, r4.dropWhile isDig)
      | _ => ([], rest)
    let pre := match p3.2 with
      | '-' :: r6 =>
        let r7 := r6.takeWhile isAlnumDash
        if r7 = [] then [] else '-' :: r7
      | _ => []
    some (r1 ++ '.' :: r3 ++ p3.1 ++ pre)
  | _ => none

/-- The whole version regex `(?:v|version\s*)?(capture)` with `/i`, matched
at the start of `s`; the alternatives are tried in source order. -/
def matchVersionAt (s : List Char) : Option (List Char) :=
  match s with
  | [] => none
  | c :: cs =>
    let tryV := if lowerEq 'v' c then matchNum cs else none
    match tryV with
    | some r => some r
    | none =>
      if isPrefixBy lowerEq (str "version") s then
        match matchNum ((s.drop 7).dropWhile isWs) with
        | some r => some r
        | none => matchNum s
      else matchNum s

/-- Leftmost match of the version regex over a string. -/
def findVersionToken : List Char → Option (List Char)
  | [] => none
  | c :: cs =>
    match matchVersionAt (c :: cs) with
    | some r => some r
    | none => findVersionToken cs

/-! ## Data model -/

/-- `GitHubUser` from the extension's type declarations (only the field the
engine reads). -/
structure GitHubUser where
  login : List Char
deriving DecidableEq, Repr

/-- `GitHubPullRequest` from the extension's type declarations, restricted
to the fields the reconciliation engine reads. -/
structure GitHubPullRequest where
  number : Nat
  title : List Char
  body : Option (List Char)
  html_url : List Char
  merged_at : Option (List Char)
  merge_commit_sha : Option (List Char)
  user : GitHubUser
  merged_by : Option GitHubUser
  base_ref : List Char
  head_sha : List Char
deriving DecidableEq, Repr

/-- `ExtensionSettings` from the extension's type declarations. -/
structure ExtensionSettings where
  githubToken : List Char
  repoOwner : List Char
  repoName : List Char
  branchName : List Char
  confluenceUrl : List Char
  confluenceEmail : List Char
  confluenceToken : List Char
  pageId : List Char
deriving DecidableEq, Repr

/-- `extractVersionFromPRText` from `src/lib/api.ts`. -/
def extractVersionFromPRText (pr : GitHubPullRequest) : List Char :=
  match findVersionToken pr.title with
  | some v => v
  | none =>
    match pr.body with
    | some b => if b = [] then [] else (findVersionToken b).getD []
    | none => []

/-- The rests that the keyword alternation
`(?:changelog|change\s*log|changes?)` can leave, in the regex's
backtracking order. -/
def kwRests (s : List Char) : List (List Char) :=
  (if isPrefixBy lowerEq (str "changelog") s then [s.drop 9] else []) ++
  (let r := (s.drop 6).dropWhile isWs
   if isPrefixBy lowerEq (str "change") s && isPrefixBy lowerEq (str "log") r
   then [r.drop 3] else []) ++
  (if isPrefixBy lowerEq (str "changes") s then [s.drop 7] else []) ++
  (if isPrefixBy lowerEq (str "change") s then [s.drop 6] else [])

/-- The lazy capture `(.+?)` (with `/s`) running to the first `\n\n` or
`\n---`, or to the end of the string. -/
def chlogGo : List Char → List Char
  | [] => []
  | c :: cs =>
    if isPrefixBy charEq (str "\n\n") (c :: cs)
        || isPrefixBy charEq (str "\n---") (c :: cs) then []
    else c :: chlogGo cs

/-- One attempt of the changelog regex at a keyword position. -/
def chlogAttempt (s : List Char) : Option (List Char) :=
  match (kwRests s).findSome? (expectChar ':') with
  | none => none
  | some rest =>
    let r := rest.dropWhile isWs
    match r with
    | [] => if rest = [] then none else some []
    | c :: cs => some (c :: chlogGo cs)

/-- Leftmost match of
`/(?:changelog|change\s*log|changes?):\s*(.+?)(?:\n\n|\n---|$)/is`. -/
def findChangelog : List Char → Option (List Char)
  | [] => none
  | c :: cs =>
    match chlogAttempt (c :: cs) with
    | some cap => some cap
    | none => findChangelog cs

/-- `extractChangelogFromPR` from `src/lib/api.ts`. -/
def extractChangelogFromPR (pr : GitHubPullRequest) : List Char :=
  match pr.body with
  | none => []
  | some b =>
    if b = [] then [] else
    match findChangelog b with
    | some cap => trimChars cap
    | none =>
      match (b.splitOn '\n').filter (fun l => trimChars l ≠ []) with
      | l :: _ => trimChars l
      | [] => pr.title

/-- One attempt of the artifact regex
`/(?:artifact|build|release)\s*(?:link|url):\s*([^\s\n]+)/i`. -/
def artifactAttempt (s : List Char) : Option (List Char) :=
  let kw :=
    if isPrefixBy lowerEq (str "artifact") s then some (s.drop 8)
    else if isPrefixBy lowerEq (str "build") s then some (s.drop 5)
    else if isPrefixBy lowerEq (str "release") s then some (s.drop 7)
    else none
  match kw with
  | none => none
  | some r1 =>
    let r2 := r1.dropWhile isWs
    let lk :=
      if isPrefixBy lowerEq (str "link") r2 then some (r2.drop 4)
      else if isPrefixBy lowerEq (str "url") r2 then some (r2.drop 3)
      else none
    match lk with
    | none => none
    | some r3 =>
      match r3 with
      | ':' :: r4 =>
        let r5 := r4.dropWhile isWs
        let cap := r5.takeWhile (fun c => !isWs c)
        if cap = [] then none else some cap
      | _ => none

/-- Leftmost match of the artifact regex. -/
def findArtifact : List Char → Option (List Char)
  | [] => none
  | c :: cs =>
    match artifactAttempt (c :: cs) with
    | some cap => some cap
    | none => findArtifact cs

/-! ## Table parsing (`getLatestEntryFromTable`) -/

/-- One parsed table row (the record built by `getLatestEntryFromTable`). -/
structure TableEntry where
  version : List Char
  releaseDate : List Char
  rawDate : JsDate
  prNumber : Option Nat
deriving DecidableEq, Repr

/-- The result record of `getLatestEntryFromTable`. -/
structure LatestEntry where
  version : List Char
  releaseDate : List Char
  entries : List TableEntry
deriving DecidableEq, Repr

/-- The capture of `/<table[^>]*>([\s\S]*?)<\/table>/i`. -/
def findTableBlock (content : List Char) : Option (List Char) :=
  match splitTagOpenCI (str "table") content with
  | none => none
  | some (_, afterOpen) =>
    match splitAtSubCI (str "</table>") afterOpen with
    | none => none
    | some (tableContent, _) => some tableContent
  
/-- One step of the `/<tr[^>]*>([\s\S]*?)<\/tr>/gi` exec loop: the next row
body and the remaining input after its `</tr>`. -/
def findRowBlock (s : List Char) : Option (List Char × List Char) :=
  match splitTagOpenCI (str "tr") s with
  | none => none
  | some (_, afterOpen) => splitAtSubCI (str "</tr>") afterOpen

/-- All row bodies, fuelled. -/
def collectRowsF : Nat → List Char → List (List Char)
  | 0, _ => []
  | f + 1, s =>
    match findRowBlock s with
    | none => []
    | some (row, rest) => row :: collectRowsF f rest

/-- All row bodies of a table content. -/
def collectRows (s : List Char) : List (List Char) :=
  collectRowsF (s.length + 1) s

/-- One step of the `/<td[^>]*>([\s\S]*?)<\/td>/gi` exec loop. -/
def findCellBlock (s : List Char) : Option (List Char × List Char) :=
  match splitTagOpenCI (str "td") s with
  | none => none
  | some (_, afterOpen) => splitAtSubCI (str "</td>") afterOpen

/-- All raw cell contents of a row, fuelled. -/
def collectCellsF : Nat → List Char → List (List Char)
  | 0, _ => []
  | f + 1, s =>
    match findCellBlock s with
    | none => []
    | some (cell, rest) => cell :: collectCellsF f rest

/-- All raw cell contents of a row. -/
def collectCells (s : List Char) : List (List Char) :=
  collectCellsF (s.length + 1) s

/-- The body of `getLatestEntryFromTable`'s row loop: header rows
(containing `<th`) are skipped; a row yields an entry only if it has more
than six cells, the version and release-date cells are non-empty, and the
release date parses. -/
def entryOfRow (row : List Char) : Option TableEntry :=
  if containsSub (str "<th") row then none else
  let cells := collectCells row
  if cells.length ≤ 6 then none else
  let c1 := cells.getD 1 []
  let c6 := cells.getD 6 []
  if c1 = [] || c6 = [] then none else
  let version := extractVersionFromCell c1
  let releaseDate := extractDateFromCell c6
  let prCell := trimChars (stripTags (cells.getD 2 []))
  let prNumber := findHashNumber prCell
  match parseTableDate releaseDate with
  | none => none
  | some parsedDate =>
    if version = [] || releaseDate = [] then none
    else some ⟨version, releaseDate, parsedDate, prNumber⟩

/-- The sort comparator of `getLatestEntryFromTable`: `compareDesc` on the
parsed dates, ties broken by descending version. -/
def cmpEntries (a b : TableEntry) : Int :=
  let dc := compareDesc a.rawDate b.rawDate
  if dc ≠ 0 then dc else compareVersions b.version a.version

/-- Stable insertion used to model `Array.prototype.sort` (stable since
ES2019) with the comparator above. -/
def insertEntry (x : TableEntry) : List TableEntry → List TableEntry
  | [] => [x]
  | y :: ys => if cmpEntries x y ≤ 0 then x :: y :: ys else y :: insertEntry x ys

/-- Stable sort of the entry list by `cmpEntries`. -/
def sortEntries : List TableEntry → List TableEntry
  | [] => []
  | x :: xs => insertEntry x (sortEntries xs)

/-- `getLatestEntryFromTable` from `src/lib/api.ts`. -/
def getLatestEntryFromTable (content : List Char) : LatestEntry :=
  match findTableBlock content with
  | none => ⟨[], [], []⟩
  | some tableContent =>
    let entries := (collectRows tableContent).filterMap entryOfRow
    if entries = [] then ⟨[], [], []⟩ else
    match sortEntries entries with
    | [] => ⟨[], [], []⟩
    | e :: tail => ⟨e.version, e.releaseDate, e :: tail⟩

/-! ## Row formatting and merging -/

/-- The status macro literal of `formatPRForConfluence`. -/
def statusPill : List Char :=
  str "<ac:structured-macro ac:name=\"status\" ac:schema-version=\"1\">\n    <ac:parameter ac:name=\"colour\">Orange</ac:parameter>\n    <ac:parameter ac:name=\"title\">Published</ac:parameter>\n  </ac:structured-macro>"

/-- The attribution cell of `formatPRForConfluence`. -/
def developerText (pr : GitHubPullRequest) : List Char :=
  match pr.merged_by with
  | some m =>
    if m.login ≠ [] && m.login ≠ pr.user.login then
      pr.user.login ++ str " (developer) / " ++ m.login ++ str " (QA/merged by)"
    else if m.login ≠ [] then
      pr.user.login ++ str " (developer & merged)"
    else pr.user.login ++ str " (developer)"
  | none => pr.user.login ++ str " (developer)"

/-- `formatPRForConfluence` from `src/lib/api.ts`, with the version always
supplied by the caller (as `appendPRsToContent` does) and `now` standing
for `new Date()`.  The result is `none` exactly when `merged_at` is present
but unparseable, in which case `toISOString()` throws in the source. -/
def formatPRForConfluence (now : JsDate) (pr : GitHubPullRequest)
    (version : List Char) : Option (List Char) :=
  let changelog := extractChangelogFromPR pr
  let mergedDate : Option JsDate :=
    match pr.merged_at with
    | some s => jsDateParse s
    | none => some now
  match mergedDate with
  | none => none
  | some md =>
    let formattedVersion :=
      if version = [] then [] else str "<h4>" ++ version ++ str "</h4>"
    let formattedDate := str "<time datetime=\"" ++ isoDateString md ++ str "\" />"
    let developer := developerText pr
    let prLink :=
      str "<a href=\"" ++ pr.html_url ++ str "\">#" ++ natChars pr.number ++ str "</a>"
    let artifactLink :=
      match pr.body with
      | some b =>
        match findArtifact b with
        | some u => str "<a href=\"" ++ u ++ str "\">" ++ u ++ str "</a>"
        | none => []
      | none => []
    some (str "\n<tr>\n  <td>Minor</td>\n  <td>" ++ formattedVersion ++
      str "</td>\n  <td>" ++ prLink ++ str "</td>\n  <td>" ++ developer ++
      str "</td>\n  <td>" ++ changelog ++ str "</td>\n  <td>" ++ statusPill ++
      str "</td>\n  <td>" ++ formattedDate ++ str "</td>\n  <td>" ++
      artifactLink ++ str "</td>\n</tr>")

/-- The synthesized table header literal of `appendPRsToContent`. -/
def tableHeader : List Char :=
  str "\n<h2>Changelog</h2>\n<table>\n  <tr>\n    <th>Type</th>\n    <th>Version</th>\n    <th>PR</th>\n    <th>Developer / QA</th>\n    <th>Change Log</th>\n    <th>Status</th>\n    <th>Release Date</th>\n    <th>Artifact Link</th>\n  </tr>"

/-- The table-existence test `/<table[^>]*>[\s\S]*?<\/table>/i.test`. -/
def hasChangelogTable (content : List Char) : Bool :=
  (findTableBlock content).isSome

/-- The merge tail of `appendPRsToContent` (the TableMerger of the spec):
rows are joined with newlines; with an existing table the first
case-insensitive `</table>` is replaced by the rows plus `\n</table>`;
otherwise a heading plus a fresh table is appended after a newline. -/
def mergeRows (existingContent : List Char) (rows : List (List Char)) :
    List Char :=
  let prRows := List.intercalate ['\n'] rows
  if hasChangelogTable existingContent then
    match splitAtSubCI (str "</table>") existingContent with
    | some (pre, post) => pre ++ prRows ++ str "\n</table>" ++ post
    | none => existingContent
  else existingContent ++ '\n' :: (tableHeader ++ prRows ++ str "</table>")

/-! ## The two filter passes of `appendPRsToContent` -/

/-- `prReleaseDate` of the first pass: `new Date(pr.merged_at)` when
merged, the current clock otherwise. -/
def prReleaseDateOf (now : JsDate) (pr : GitHubPullRequest) : Option JsDate :=
  match pr.merged_at with
  | some s => jsDateParse s
  | none => some now

/-- The pass-1 predicate of `appendPRsToContent`: duplicate suppression by
PR number, then the date filter against `new Date(latestEntry.releaseDate)`
(note: the raw string is re-parsed by the native parser, not the already
computed `rawDate`). -/
def pass1 (latestEntry : LatestEntry) (now : JsDate)
    (pr : GitHubPullRequest) : Bool :=
  if latestEntry.entries.any (fun entry => entry.prNumber = some pr.number) then
    false
  else if latestEntry.releaseDate = [] then true
  else jsGt (prReleaseDateOf now pr) (jsDateParse latestEntry.releaseDate)

/-- The pass-2 loop of `appendPRsToContent`.  `evd` is the outcome of
`extractVersionAndPRDetails` for each PR (the network boundary): the
extracted version together with the detailed PR record. -/
def pass2 (evd : GitHubPullRequest → List Char × GitHubPullRequest)
    (headVersion : List Char) :
    List GitHubPullRequest → List (GitHubPullRequest × List Char)
  | [] => []
  | pr :: rest =>
    let r := evd pr
    if r.1 ≠ [] then
      if headVersion = [] then (r.2, r.1) :: pass2 evd headVersion rest
      else if isNewerVersion r.1 headVersion then
        (r.2, r.1) :: pass2 evd headVersion rest
      else pass2 evd headVersion rest
    else (r.2, r.1) :: pass2 evd headVersion rest

/-- The list `newPRsWithDetails` that `appendPRsToContent` admits for a
given document state and candidate list. -/
def admittedPRs (evd : GitHubPullRequest → List Char × GitHubPullRequest)
    (now : JsDate) (existingContent : List Char)
    (prs : List GitHubPullRequest) : List (GitHubPullRequest × List Char) :=
  if prs = [] then [] else
  let latestEntry := getLatestEntryFromTable existingContent
  pass2 evd latestEntry.version (prs.filter (pass1 latestEntry now))

/-- Format every admitted PR; `none` if any row formatting throws. -/
def formatAll (now : JsDate) :
    List (GitHubPullRequest × List Char) → Option (List (List Char))
  | [] => some []
  | (pr, v) :: rest =>
    match formatPRForConfluence now pr v with
    | none => none
    | some row =>
      match formatAll now rest with
      | none => none
      | some rows => some (row :: rows)

/-- `appendPRsToContent` from `src/lib/api.ts`, with the per-PR network
outcome abstracted into `evd` and the clock into `now`.  `none` models the
returned promise rejecting. -/
def appendPRsToContent (evd : GitHubPullRequest → List Char × GitHubPullRequest)
    (now : JsDate) (existingContent : List Char)
    (prs : List GitHubPullRequest) : Option (List Char) :=
  if prs = [] then some existingContent else
  let latestEntry := getLatestEntryFromTable existingContent
  let potentialNewPRs := prs.filter (pass1 latestEntry now)
  if potentialNewPRs = [] then some existingContent else
  let newPRsWithDetails := pass2 evd latestEntry.version potentialNewPRs
  if newPRsWithDetails = [] then some existingContent else
  match formatAll now newPRsWithDetails with
  | none => none
  | some rows => some (mergeRows existingContent rows)

/-- The `evd` outcome in which every manifest lookup fails and version
extraction falls back to the PR text, and the detail fetch fails so the
list record is reused (both are legitimate outcomes per §4.1). -/
def fallbackEvd (pr : GitHubPullRequest) : List Char × GitHubPullRequest :=
  (extractVersionFromPRText pr, pr)

/-! ## `extractVersionAndPRDetails` (the VersionExtractor) -/

/-- The possible outcomes of the manifest (`package.json`) fetch inside
`extractVersionAndPRDetails`, i.e. its network boundary. -/
inductive ManifestFetch where
  | netError
  | badStatus (status : Nat)
  | noContentField
  | badBase64
  | badJson
  | noVersionField
  | version (v : List Char)
deriving DecidableEq, Repr

/-- The detail-fetch step: on failure the list record is kept. -/
def detailedOf (detail : Option GitHubPullRequest)
    (pr : GitHubPullRequest) : GitHubPullRequest :=
  detail.getD pr

/-- `detailedPR.merge_commit_sha || detailedPR.head.sha` (JS falsiness). -/
def shaOf (pr : GitHubPullRequest) : List Char :=
  match pr.merge_commit_sha with
  | some s => if s = [] then pr.head_sha else s
  | none => pr.head_sha

/-- The body of the second `try` block of `extractVersionAndPRDetails`:
`.error` is a thrown exception (network failure, or the explicit `throw`
on a non-404 error status); every other failure returns the title/body
fallback from inside the `try`. -/
def manifestStep (m : ManifestFetch) (dpr : GitHubPullRequest) :
    Except (List Char) (List Char × GitHubPullRequest) :=
  if shaOf dpr = [] then .ok (extractVersionFromPRText dpr, dpr) else
  match m with
  | .netError => .error (str "network error")
  | .badStatus code =>
    if code = 404 then .ok (extractVersionFromPRText dpr, dpr)
    else .error (str "GitHub API error")
  | .noContentField => .ok (extractVersionFromPRText dpr, dpr)
  | .badBase64 => .ok (extractVersionFromPRText dpr, dpr)
  | .badJson => .ok (extractVersionFromPRText dpr, dpr)
  | .noVersionField => .ok (extractVersionFromPRText dpr, dpr)
  | .version v =>
    if v = [] then .ok (extractVersionFromPRText dpr, dpr) else .ok (v, dpr)

/-- `extractVersionAndPRDetails` from `src/lib/api.ts`: the surrounding
`catch` turns every thrown manifest failure into the title/body fallback,
so the function as a whole is total. -/
def extractVersionAndPRDetails (detail : Option GitHubPullRequest)
    (m : ManifestFetch) (pr : GitHubPullRequest) :
    List Char × GitHubPullRequest :=
  match manifestStep m (detailedOf detail pr) with
  | .ok r => r
  | .error _ =>
    (extractVersionFromPRText (detailedOf detail pr), detailedOf detail pr)

/-- The manifest fetch did not produce a usable version. -/
def manifestFails : ManifestFetch → Bool
  | .version v => v.isEmpty
  | _ => true

/-! ## `fetchMergedPRs` -/

/-- The query parameters `fetchMergedPRs` sets on its single request. -/
def pullsQueryParams : List (List Char × List Char) :=
  [(str "state", str "closed"), (str "sort", str "updated"),
   (str "direction", str "desc"), (str "per_page", str "100")]

/-- `fetchMergedPRs` from `src/lib/api.ts`: `httpOk` and `pullRequests`
are the network response boundary (one page, at most 100 items per
`pullsQueryParams`); the result keeps exactly the merged PRs whose base
branch is the configured one. -/
def fetchMergedPRs (settings : ExtensionSettings) (httpOk : Bool)
    (pullRequests : List GitHubPullRequest) :
    Except (List Char) (List GitHubPullRequest) :=
  if settings.repoOwner = [] || settings.repoName = [] then
    .error (str "Repository owner and name are required.")
  else if !httpOk then .error (str "GitHub API error")
  else
    .ok (pullRequests.filter (fun pr =>
      (match pr.merged_at with
       | some s => !s.isEmpty
       | none => false)
      && pr.base_ref = settings.branchName))

/-! ## Concrete inputs for the claims -/

/-- A wiki page body with one table: a header row and one data row with
version `1.0.0`, PR `#1`, release date `01/02/2025` (1 February 2025 in the
day-first format this page family uses). -/
def content0 : List Char :=
  str "<p>intro</p><table><tr><th>Type</th><th>Version</th><th>PR</th><th>Developer / QA</th><th>Change Log</th><th>Status</th><th>Release Date</th><th>Artifact Link</th></tr><tr><td>Minor</td><td>1.0.0</td><td>#1</td><td>bob (developer)</td><td>initial</td><td>ok</td><td>01/02/2025</td><td></td></tr></table><p>outro</p>"

/-- A candidate PR with no version anywhere in its text, merged on
10 January 2025. -/
def pr2 : GitHubPullRequest :=
  { number := 2
    title := str "Fix login bug"
    body := none
    html_url := str "https://example.com/pull/2"
    merged_at := some (str "2025-01-10T12:00:00Z")
    merge_commit_sha := some (str "abc123")
    user := ⟨str "alice"⟩
    merged_by := none
    base_ref := str "main"
    head_sha := str "h1" }

/-- The clock at which the reconciliation runs are modelled. -/
def now0 : JsDate := ⟨2025, 10, 12, 12, 0, 0⟩

/-- A page body whose head entry's release date is `30/08/2025`
(30 August 2025): parseable by `parseTableDate`, but invalid for the
native parser used by the pass-1 filter. -/
def content3 : List Char :=
  str "<table><tr><th>Type</th><th>Version</th><th>PR</th><th>Developer / QA</th><th>Change Log</th><th>Status</th><th>Release Date</th><th>Artifact Link</th></tr><tr><td>Minor</td><td>2.0.0</td><td>#4</td><td>bob (developer)</td><td>feature</td><td>ok</td><td>30/08/2025</td><td></td></tr></table>"

/-- A candidate merged on 15 September 2025, strictly after the head's
release instant. -/
def pr5 : GitHubPullRequest :=
  { number := 5
    title := str "Release v2.1.0"
    body := none
    html_url := str "https://example.com/pull/5"
    merged_at := some (str "2025-09-15T10:00:00Z")
    merge_commit_sha := some (str "def456")
    user := ⟨str "alice"⟩
    merged_by := none
    base_ref := str "main"
    head_sha := str "h5" }

/-- A candidate whose `merged_at` is null. -/
def prU : GitHubPullRequest :=
  { number := 9
    title := str "Hotfix"
    body := none
    html_url := str "https://example.com/pull/9"
    merged_at := none
    merge_commit_sha := some (str "fff999")
    user := ⟨str "alice"⟩
    merged_by := none
    base_ref := str "main"
    head_sha := str "h9" }

/-- A PR whose body's first line injects table markup (`<th>`). -/
def pr6 : GitHubPullRequest :=
  { number := 42
    title := str "Release v1.2.3"
    body := some (str "<th>")
    html_url := str "https://example.com/pull/42"
    merged_at := some (str "2025-09-07T10:00:00Z")
    merge_commit_sha := some (str "abc777")
    user := ⟨str "alice"⟩
    merged_by := none
    base_ref := str "main"
    head_sha := str "h42" }

/-- The document with a stray closing-table token before its only table. -/
def strayDoc : List Char :=
  str "</table><table><tr><td>a</td></tr></table>"

/-- A formatted row used against `strayDoc`. -/
def strayRow : List Char := str "<tr><td>b</td></tr>"

/-- Executable check that no suffix of `a` with at least `pat.length`
characters has `pat` as an `f`-prefix; used to carry a scan across a
concrete chunk of text. -/
def noSubFull (f : Char → Char → Bool) (pat a : List Char) : Bool :=
  a.tails.all (fun s => decide (s.length < pat.length) || !(isPrefixBy f pat s))

/-- The change-request family of the round-trip theorem: an arbitrary
number with fixed, markup-free metadata and no body. -/
def prRT (n : Nat) : GitHubPullRequest :=
  { number := n
    title := str "release"
    body := none
    html_url := str "https://example.com/pull/1"
    merged_at := some (str "2025-09-07T10:00:00Z")
    merge_commit_sha := some (str "abc")
    user := ⟨str "alice"⟩
    merged_by := none
    base_ref := str "main"
    head_sha := str "h" }

/-- First concrete segment of the merged document of the round-trip
theorem: everything before the version text. -/
def mergedSegA : List Char := str "\n\n<h2>Changelog</h2>\n<table>\n  <tr>\n    <th>Type</th>\n    <th>Version</th>\n    <th>PR</th>\n    <th>Developer / QA</th>\n    <th>Change Log</th>\n    <th>Status</th>\n    <th>Release Date</th>\n    <th>Artifact Link</th>\n  </tr>\n<tr>\n  <td>Minor</td>\n  <td><h4>"

/-- Second concrete segment: between the version text and the PR number. -/
def mergedSegB : List Char := str "</h4></td>\n  <td><a href=\"https://example.com/pull/1\">#"

/-- Third concrete segment: everything after the PR number. -/
def mergedSegC : List Char := str "</a></td>\n  <td>alice (developer)</td>\n  <td></td>\n  <td><ac:structured-macro ac:name=\"status\" ac:schema-version=\"1\">\n    <ac:parameter ac:name=\"colour\">Orange</ac:parameter>\n    <ac:parameter ac:name=\"title\">Published</ac:parameter>\n  </ac:structured-macro></td>\n  <td><time datetime=\"2025-09-07\" /></td>\n  <td></td>\n</tr></table>"

set_option maxRecDepth 100000

/-! ## Auxiliary lemmas: characters and digits -/

theorem toLower_of_le57 (c : Char) (h : c.toNat ≤ 57) : c.toLower = c := by
  unfold Char.toLower
  simp only []
  rw [if_neg]
  omega

theorem isDig_le57 (c : Char) (h : isDig c = true) : c.toNat ≤ 57 := by
  unfold isDig at h
  simp only [Bool.and_eq_true, decide_eq_true_eq] at h
  exact h.2

theorem isVerChar_le57 (c : Char) (h : isVerChar c = true) : c.toNat ≤ 57 := by
  unfold isVerChar at h
  simp only [Bool.or_eq_true] at h
  rcases h with h | h
  · exact isDig_le57 c h
  · simp only [decide_eq_true_eq] at h
    subst h
    decide

theorem toLower_of_isVerChar (c : Char) (h : isVerChar c = true) :
    c.toLower = c :=
  toLower_of_le57 c (isVerChar_le57 c h)

theorem lowerEq_false_left (p c : Char) (hp : isVerChar p.toLower = false)
    (hc : isVerChar c = true) : lowerEq p c = false := by
  unfold lowerEq
  rw [toLower_of_isVerChar c hc]
  by_contra hne
  rw [Bool.not_eq_false, beq_iff_eq] at hne
  rw [hne, hc] at hp
  simp at hp

theorem charEq_false_left (p c : Char) (hp : isVerChar p = false)
    (hc : isVerChar c = true) : charEq p c = false := by
  unfold charEq
  by_contra hne
  rw [Bool.not_eq_false, beq_iff_eq] at hne
  rw [hne, hc] at hp
  simp at hp

theorem all_lowerEq_false (pat : List Char) (c : Char)
    (hpat : pat.all (fun p => !isVerChar p.toLower) = true)
    (hc : isVerChar c = true) : ∀ p ∈ pat, lowerEq p c = false := by
  intro p hp
  rw [List.all_eq_true] at hpat
  have := hpat p hp
  rw [Bool.not_eq_true'] at this
  exact lowerEq_false_left p c this hc

theorem all_charEq_false (pat : List Char) (c : Char)
    (hpat : pat.all (fun p => !isVerChar p) = true)
    (hc : isVerChar c = true) : ∀ p ∈ pat, charEq p c = false := by
  intro p hp
  rw [List.all_eq_true] at hpat
  have := hpat p hp
  rw [Bool.not_eq_true'] at this
  exact charEq_false_left p c this hc

theorem isDig_dig (n : Nat) : isDig (dig n) = true := by
  unfold dig
  have h : n % 10 < 10 := Nat.mod_lt _ (by decide)
  rcases Nat.lt_iff_le_pred (by decide) |>.mp h with _
  interval_cases h10 : (n % 10) <;> decide

theorem isVerChar_dig (n : Nat) : isVerChar (dig n) = true := by
  unfold isVerChar
  rw [isDig_dig]
  rfl

theorem digitVal_dig (n : Nat) : digitVal (dig n) = n % 10 := by
  unfold dig
  have h : n % 10 < 10 := Nat.mod_lt _ (by decide)
  interval_cases h10 : (n % 10) <;> decide

/-! ## Auxiliary lemmas: decimal rendering -/

theorem natCharsAux_fuel : ∀ f g n acc, n < f → n < g →
    natCharsAux f n acc = natCharsAux g n acc := by
  intro f
  induction f with
  | zero => intro g n acc h1 _; omega
  | succ f ih =>
    intro g n acc h1 h2
    match g, h2 with
    | g + 1, h2 =>
      show natCharsAux (f + 1) n acc = natCharsAux (g + 1) n acc
      unfold natCharsAux
      by_cases h : n < 10
      · rw [if_pos h, if_pos h]
      · rw [if_neg h, if_neg h]
        have hd : n / 10 < n := Nat.div_lt_self (by omega) (by decide)
        exact ih g (n / 10) (dig n :: acc) (by omega) (by omega)

theorem natCharsAux_append : ∀ f n acc, n < f →
    natCharsAux f n acc = natCharsAux f n [] ++ acc := by
  intro f
  induction f with
  | zero => intro n acc h; omega
  | succ f ih =>
    intro n acc h
    unfold natCharsAux
    by_cases h10 : n < 10
    · rw [if_pos h10, if_pos h10]; rfl
    · rw [if_neg h10, if_neg h10]
      have hd : n / 10 < n := Nat.div_lt_self (by omega) (by decide)
      have hfa : n / 10 < f := by omega
      rw [ih (n / 10) (dig n :: acc) hfa, ih (n / 10) [dig n] hfa,
        List.append_assoc]
      rfl

theorem natChars_lt10 (n : Nat) (h : n < 10) : natChars n = [dig n] := by
  unfold natChars natCharsAux
  rw [if_pos h]

theorem natChars_step (n : Nat) (h : 10 ≤ n) :
    natChars n = natChars (n / 10) ++ [dig n] := by
  have hd : n / 10 < n := Nat.div_lt_self (by omega) (by decide)
  show natCharsAux (n + 1) n [] = natChars (n / 10) ++ [dig n]
  conv_lhs => rw [natCharsAux]
  rw [if_neg (by omega), natCharsAux_append n (n / 10) [dig n] hd,
    natCharsAux_fuel n (n / 10 + 1) (n / 10) [] hd (by omega)]
  rfl

theorem natChars_ne_nil (n : Nat) : natChars n ≠ [] := by
  by_cases h : n < 10
  · rw [natChars_lt10 n h]; simp
  · rw [natChars_step n (by omega)]; simp

theorem natChars_digits (n : Nat) : ∀ c ∈ natChars n, isDig c = true := by
  induction n using Nat.strong_induction_on with
  | _ n ih =>
    by_cases h : n < 10
    · rw [natChars_lt10 n h]
      intro c hc
      rw [List.mem_singleton] at hc
      subst hc
      exact isDig_dig n
    · rw [natChars_step n (by omega)]
      intro c hc
      rw [List.mem_append] at hc
      rcases hc with hc | hc
      · exact ih (n / 10) (Nat.div_lt_self (by omega) (by decide)) c hc
      · rw [List.mem_singleton] at hc
        subst hc
        exact isDig_dig n

theorem digitsVal_append_one (l : List Char) (c : Char) :
    digitsVal (l ++ [c]) = digitsVal l * 10 + digitVal c := by
  unfold digitsVal
  rw [List.foldl_append]
  rfl

theorem digitsVal_natChars (n : Nat) : digitsVal (natChars n) = n := by
  induction n using Nat.strong_induction_on with
  | _ n ih =>
    by_cases h : n < 10
    · rw [natChars_lt10 n h]
      show digitsVal [dig n] = n
      unfold digitsVal
      simp only [List.foldl_cons, List.foldl_nil]
      rw [Nat.zero_mul, Nat.zero_add, digitVal_dig]
      omega
    · rw [natChars_step n (by omega), digitsVal_append_one,
        ih (n / 10) (Nat.div_lt_self (by omega) (by decide)), digitVal_dig]
      omega

/-! ## Auxiliary lemmas: substring scanners -/

theorem splitAtSubBy_nil (f : Char → Char → Bool) (pat : List Char) :
    splitAtSubBy f pat [] = if pat = [] then some ([], []) else none := rfl

theorem splitAtSubBy_cons_pos (f : Char → Char → Bool) (pat : List Char)
    (c : Char) (cs : List Char) (h : isPrefixBy f pat (c :: cs) = true) :
    splitAtSubBy f pat (c :: cs) = some ([], (c :: cs).drop pat.length) := by
  conv_lhs => rw [splitAtSubBy]
  rw [if_pos h]

theorem splitAtSubBy_cons_neg (f : Char → Char → Bool) (pat : List Char)
    (c : Char) (cs : List Char) (h : isPrefixBy f pat (c :: cs) = false) :
    splitAtSubBy f pat (c :: cs) =
      (splitAtSubBy f pat cs).map (fun pq => (c :: pq.1, pq.2)) := by
  conv_lhs => rw [splitAtSubBy]
  rw [if_neg (by rw [h]; simp)]
  rcases hs : splitAtSubBy f pat cs with _ | ⟨pre, post⟩ <;> simp [hs]

theorem isPrefixBy_length (f : Char → Char → Bool) :
    ∀ pat s, isPrefixBy f pat s = true → pat.length ≤ s.length := by
  intro pat
  induction pat with
  | nil => intro s _; simp
  | cons p ps ih =>
    intro s h
    match s with
    | [] => simp [isPrefixBy] at h
    | c :: cs =>
      unfold isPrefixBy at h
      rw [Bool.and_eq_true] at h
      have := ih cs h.2
      simp only [List.length_cons]
      omega

theorem isPrefixBy_append_of (f : Char → Char → Bool) :
    ∀ pat s x, isPrefixBy f pat s = true → isPrefixBy f pat (s ++ x) = true := by
  intro pat
  induction pat with
  | nil => intro s x _; rfl
  | cons p ps ih =>
    intro s x h
    match s with
    | [] => simp [isPrefixBy] at h
    | c :: cs =>
      unfold isPrefixBy at h ⊢
      rw [Bool.and_eq_true] at h
      simp [h.1, ih cs x h.2]

theorem isPrefixBy_long (f : Char → Char → Bool) :
    ∀ pat s x, pat.length ≤ s.length →
    isPrefixBy f pat (s ++ x) = isPrefixBy f pat s := by
  intro pat
  induction pat with
  | nil => intro s x _; rfl
  | cons p ps ih =>
    intro s x hlen
    match s with
    | [] => simp at hlen
    | c :: cs =>
      show isPrefixBy f (p :: ps) (c :: (cs ++ x)) = _
      unfold isPrefixBy
      rw [ih cs x (by simp only [List.length_cons] at hlen; omega)]

theorem isPrefixBy_short (f : Char → Char → Bool) :
    ∀ s pat c rest, s.length < pat.length → (∀ p ∈ pat, f p c = false) →
    isPrefixBy f pat (s ++ c :: rest) = false := by
  intro s
  induction s with
  | nil =>
    intro pat c rest hlen hc
    match pat with
    | [] => simp at hlen
    | p :: ps =>
      show isPrefixBy f (p :: ps) (c :: rest) = false
      unfold isPrefixBy
      rw [hc p (by simp)]
      rfl
  | cons x s2 ih =>
    intro pat c rest hlen hc
    match pat with
    | [] => simp at hlen
    | p :: ps =>
      show isPrefixBy f (p :: ps) (x :: (s2 ++ c :: rest)) = false
      unfold isPrefixBy
      by_cases hf : f p x = true
      · rw [hf, ih ps c rest (by simp only [List.length_cons] at hlen; omega)
          (fun q hq => hc q (List.mem_cons_of_mem p hq))]
        rfl
      · rw [Bool.not_eq_true] at hf
        rw [hf]
        rfl

theorem isPrefixBy_refl_append :
    ∀ (pat b : List Char), isPrefixBy charEq pat (pat ++ b) = true := by
  intro pat
  induction pat with
  | nil => intro b; rfl
  | cons p ps ih =>
    intro b
    show isPrefixBy charEq (p :: ps) (p :: (ps ++ b)) = true
    unfold isPrefixBy
    rw [ih b]
    simp [charEq]

theorem splitAtSubBy_len (f : Char → Char → Bool) (pat : List Char) :
    ∀ s p q, splitAtSubBy f pat s = some (p, q) →
    s.length = p.length + pat.length + q.length := by
  intro s
  induction s with
  | nil =>
    intro p q h
    rw [splitAtSubBy_nil] at h
    by_cases hp : pat = []
    · rw [if_pos hp] at h
      cases h
      subst hp
      simp
    · rw [if_neg hp] at h
      cases h
  | cons c cs ih =>
    intro p q h
    by_cases hpre : isPrefixBy f pat (c :: cs) = true
    · rw [splitAtSubBy_cons_pos f pat c cs hpre] at h
      cases h
      have hl := isPrefixBy_length f pat (c :: cs) hpre
      simp only [List.length_cons, List.length_drop, List.length_nil]
      simp only [List.length_cons] at hl
      omega
    · rw [Bool.not_eq_true] at hpre
      rw [splitAtSubBy_cons_neg f pat c cs hpre] at h
      rcases hsub : splitAtSubBy f pat cs with _ | ⟨pre, post⟩ <;>
        rw [hsub] at h
      · cases h
      · cases h
        have := ih pre post hsub
        simp only [List.length_cons]
        omega

theorem splitAtSubBy_found_append (f : Char → Char → Bool) (pat : List Char) :
    ∀ a x p q, splitAtSubBy f pat a = some (p, q) →
    splitAtSubBy f pat (a ++ x) = some (p, q ++ x) := by
  intro a
  induction a with
  | nil =>
    intro x p q h
    rw [splitAtSubBy_nil] at h
    by_cases hp : pat = []
    · rw [if_pos hp] at h
      cases h
      subst hp
      match x with
      | [] => rfl
      | c :: cs =>
        rw [List.nil_append, splitAtSubBy_cons_pos f [] c cs rfl]
        rfl
    · rw [if_neg hp] at h
      cases h
  | cons c cs ih =>
    intro x p q h
    by_cases hpre : isPrefixBy f pat (c :: cs) = true
    · rw [splitAtSubBy_cons_pos f pat c cs hpre] at h
      cases h
      have hl := isPrefixBy_length f pat (c :: cs) hpre
      have hpre2 : isPrefixBy f pat (c :: (cs ++ x)) = true := by
        have h2 := isPrefixBy_append_of f pat (c :: cs) x hpre
        simpa using h2
      show splitAtSubBy f pat (c :: (cs ++ x)) = _
      rw [splitAtSubBy_cons_pos f pat c (cs ++ x) hpre2]
      congr 1
      have h3 : (c :: (cs ++ x)) = (c :: cs) ++ x := by simp
      rw [h3, List.drop_append_eq_append_drop,
        Nat.sub_eq_zero_of_le (by simpa using hl), List.drop_zero]
    · rw [Bool.not_eq_true] at hpre
      rw [splitAtSubBy_cons_neg f pat c cs hpre] at h
      rcases hsub : splitAtSubBy f pat cs with _ | ⟨pre, post⟩ <;>
        rw [hsub] at h
      · cases h
      · cases h
        have hlen := splitAtSubBy_len f pat cs pre post hsub
        have hpre2 : isPrefixBy f pat (c :: (cs ++ x)) = false := by
          have h2 : (c :: (cs ++ x)) = (c :: cs) ++ x := by simp
          rw [h2, isPrefixBy_long f pat (c :: cs) x
            (by simp only [List.length_cons]; omega)]
          exact hpre
        show splitAtSubBy f pat (c :: (cs ++ x)) = _
        rw [splitAtSubBy_cons_neg f pat c (cs ++ x) hpre2,
          ih x pre post hsub]
        rfl

theorem splitAtSubBy_skip_chunk (f : Char → Char → Bool) (p0 : Char)
    (pt : List Char) :
    ∀ d r, (∀ c ∈ d, f p0 c = false) →
    splitAtSubBy f (p0 :: pt) (d ++ r) =
      (splitAtSubBy f (p0 :: pt) r).map (fun pq => (d ++ pq.1, pq.2)) := by
  intro d
  induction d with
  | nil =>
    intro r _
    rcases h : splitAtSubBy f (p0 :: pt) r with _ | ⟨pre, post⟩ <;> simp [h]
  | cons x d2 ih =>
    intro r hc
    have hx : isPrefixBy f (p0 :: pt) (x :: (d2 ++ r)) = false := by
      unfold isPrefixBy
      rw [hc x (by simp)]
      rfl
    show splitAtSubBy f (p0 :: pt) (x :: (d2 ++ r)) = _
    rw [splitAtSubBy_cons_neg f (p0 :: pt) x (d2 ++ r) hx,
      ih r (fun c hcm => hc c (List.mem_cons_of_mem x hcm))]
    rcases h : splitAtSubBy f (p0 :: pt) r with _ | ⟨pre, post⟩ <;> simp [h]

theorem noSubFull_spec (f : Char → Char → Bool) (pat a s : List Char)
    (ha : noSubFull f pat a = true) (hs : s <:+ a)
    (hlen : pat.length ≤ s.length) : isPrefixBy f pat s = false := by
  unfold noSubFull at ha
  rw [List.all_eq_true] at ha
  have h := ha s ((List.mem_tails s a).mpr hs)
  rw [Bool.or_eq_true] at h
  rcases h with h | h
  · rw [decide_eq_true_eq] at h
    omega
  · rw [Bool.not_eq_true'] at h
    exact h

theorem noSubFull_cons (f : Char → Char → Bool) (pat : List Char)
    (x : Char) (a : List Char) (h : noSubFull f pat (x :: a) = true) :
    noSubFull f pat a = true := by
  unfold noSubFull at h ⊢
  rw [List.tails_cons, List.all_cons, Bool.and_eq_true] at h
  exact h.2

theorem splitAtSubBy_concat (f : Char → Char → Bool) (p0 : Char)
    (pt : List Char) :
    ∀ a c rest, (∀ p ∈ p0 :: pt, f p c = false) →
    noSubFull f (p0 :: pt) a = true →
    splitAtSubBy f (p0 :: pt) (a ++ c :: rest) =
      (splitAtSubBy f (p0 :: pt) (c :: rest)).map
        (fun pq => (a ++ pq.1, pq.2)) := by
  intro a
  induction a with
  | nil =>
    intro c rest _ _
    rcases h : splitAtSubBy f (p0 :: pt) (c :: rest) with _ | ⟨pre, post⟩ <;>
      simp [h]
  | cons x a2 ih =>
    intro c rest hc ha
    have hx : isPrefixBy f (p0 :: pt) (x :: (a2 ++ c :: rest)) = false := by
      by_cases hl : (p0 :: pt).length ≤ (x :: a2).length
      · have h2 : x :: (a2 ++ c :: rest) = (x :: a2) ++ c :: rest := by simp
        rw [h2, isPrefixBy_long f (p0 :: pt) (x :: a2) (c :: rest) hl]
        exact noSubFull_spec f (p0 :: pt) (x :: a2) (x :: a2) ha
          (List.suffix_refl _) hl
      · have h2 := isPrefixBy_short f (x :: a2) (p0 :: pt) c rest (by omega) hc
        simpa using h2
    show splitAtSubBy f (p0 :: pt) (x :: (a2 ++ c :: rest)) = _
    rw [splitAtSubBy_cons_neg f (p0 :: pt) x (a2 ++ c :: rest) hx,
      ih c rest hc (noSubFull_cons f (p0 :: pt) x a2 ha)]
    rcases h : splitAtSubBy f (p0 :: pt) (c :: rest) with _ | ⟨pre, post⟩ <;>
      simp [h]

theorem containsSub_of_append (pat a b : List Char) :
    containsSub pat (a ++ (pat ++ b)) = true := by
  unfold containsSub
  induction a with
  | nil =>
    simp only [List.nil_append]
    match pat with
    | [] =>
      match b with
      | [] => rfl
      | c :: cs =>
        rw [List.nil_append, splitAtSubBy_cons_pos charEq [] c cs rfl]
        rfl
    | p :: ps =>
      show (splitAtSubBy charEq (p :: ps) (p :: (ps ++ b))).isSome = true
      rw [splitAtSubBy_cons_pos charEq (p :: ps) p (ps ++ b)
        (isPrefixBy_refl_append (p :: ps) b)]
      rfl
  | cons x a2 ih =>
    show (splitAtSubBy charEq pat (x :: (a2 ++ (pat ++ b)))).isSome = true
    by_cases hpre : isPrefixBy charEq pat (x :: (a2 ++ (pat ++ b))) = true
    · rw [splitAtSubBy_cons_pos charEq pat x (a2 ++ (pat ++ b)) hpre]
      rfl
    · rw [Bool.not_eq_true] at hpre
      rw [splitAtSubBy_cons_neg charEq pat x (a2 ++ (pat ++ b)) hpre]
      rcases h : splitAtSubBy charEq pat (a2 ++ (pat ++ b)) with _ | ⟨pre, post⟩
      · rw [h] at ih
        cases ih
      · rfl

theorem splitAtSubBy_len_lt (f : Char → Char → Bool) (pat s p q : List Char)
    (hpat : pat ≠ []) (h : splitAtSubBy f pat s = some (p, q)) :
    q.length < s.length := by
  have := splitAtSubBy_len f pat s p q h
  have hp : 1 ≤ pat.length := by
    match pat, hpat with
    | c :: cs, _ => simp
  omega

theorem splitTagOpenCI_len (name s pre post : List Char)
    (h : splitTagOpenCI name s = some (pre, post)) : post.length < s.length := by
  unfold splitTagOpenCI at h
  rcases h1 : splitAtSubCI ('<' :: name) s with _ | ⟨pre1, rest⟩ <;>
    rw [h1] at h
  · cases h
  · dsimp only at h
    rcases h2 : splitAtSubBy charEq ['>'] rest with _ | ⟨attrs, post2⟩ <;>
      rw [h2] at h
    · cases h
    · cases h
      have l1 := splitAtSubBy_len_lt lowerEq ('<' :: name) s _ rest
        (by simp) h1
      have l2 := splitAtSubBy_len_lt charEq ['>'] rest attrs _
        (by simp) h2
      omega

theorem findRowBlock_len (s row rest : List Char)
    (h : findRowBlock s = some (row, rest)) : rest.length < s.length := by
  unfold findRowBlock at h
  rcases h1 : splitTagOpenCI (str "tr") s with _ | ⟨pre, post⟩ <;>
    rw [h1] at h
  · cases h
  · have l1 := splitTagOpenCI_len (str "tr") s pre post h1
    have l2 := splitAtSubBy_len_lt lowerEq (str "</tr>") post row rest
      (by decide) h
    omega

theorem findCellBlock_len (s cell rest : List Char)
    (h : findCellBlock s = some (cell, rest)) : rest.length < s.length := by
  unfold findCellBlock at h
  rcases h1 : splitTagOpenCI (str "td") s with _ | ⟨pre, post⟩ <;>
    rw [h1] at h
  · cases h
  · have l1 := splitTagOpenCI_len (str "td") s pre post h1
    have l2 := splitAtSubBy_len_lt lowerEq (str "</td>") post cell rest
      (by decide) h
    omega

theorem collectRowsF_fuel : ∀ f1 f2 s, s.length < f1 → s.length < f2 →
    collectRowsF f1 s = collectRowsF f2 s := by
  intro f1
  induction f1 with
  | zero => intro f2 s h1 _; omega
  | succ f1 ih =>
    intro f2 s h1 h2
    match f2, h2 with
    | f2 + 1, h2 =>
      show collectRowsF (f1 + 1) s = collectRowsF (f2 + 1) s
      unfold collectRowsF
      rcases h : findRowBlock s with _ | ⟨row, rest⟩
      · rfl
      · have := findRowBlock_len s row rest h
        exact congrArg (row :: ·) (ih f2 rest (by omega) (by omega))

theorem collectRows_none (s : List Char) (h : findRowBlock s = none) :
    collectRows s = [] := by
  unfold collectRows collectRowsF
  rw [h]

theorem collectRows_step (s row rest : List Char)
    (h : findRowBlock s = some (row, rest)) :
    collectRows s = row :: collectRows rest := by
  unfold collectRows
  conv_lhs => rw [collectRowsF]
  rw [h]
  have := findRowBlock_len s row rest h
  exact congrArg (row :: ·)
    (collectRowsF_fuel s.length (rest.length + 1) rest (by omega) (by omega))

theorem collectCellsF_fuel : ∀ f1 f2 s, s.length < f1 → s.length < f2 →
    collectCellsF f1 s = collectCellsF f2 s := by
  intro f1
  induction f1 with
  | zero => intro f2 s h1 _; omega
  | succ f1 ih =>
    intro f2 s h1 h2
    match f2, h2 with
    | f2 + 1, h2 =>
      show collectCellsF (f1 + 1) s = collectCellsF (f2 + 1) s
      unfold collectCellsF
      rcases h : findCellBlock s with _ | ⟨cell, rest⟩
      · rfl
      · have := findCellBlock_len s cell rest h
        exact congrArg (cell :: ·) (ih f2 rest (by omega) (by omega))

theorem collectCells_none (s : List Char) (h : findCellBlock s = none) :
    collectCells s = [] := by
  unfold collectCells collectCellsF
  rw [h]

theorem collectCells_step (s cell rest : List Char)
    (h : findCellBlock s = some (cell, rest)) :
    collectCells s = cell :: collectCells rest := by
  unfold collectCells
  conv_lhs => rw [collectCellsF]
  rw [h]
  have := findCellBlock_len s cell rest h
  exact congrArg (cell :: ·)
    (collectCellsF_fuel s.length (rest.length + 1) rest (by omega) (by omega))

theorem stripTagsF_fuel : ∀ f1 f2 s, s.length < f1 → s.length < f2 →
    stripTagsF f1 s = stripTagsF f2 s := by
  intro f1
  induction f1 with
  | zero => intro f2 s h1 _; omega
  | succ f1 ih =>
    intro f2 s h1 h2
    match f2, h2 with
    | f2 + 1, h2 =>
      match s with
      | [] => rfl
      | c :: cs =>
        show stripTagsF (f1 + 1) (c :: cs) = stripTagsF (f2 + 1) (c :: cs)
        unfold stripTagsF
        by_cases hc : c = '<'
        · rw [if_pos hc, if_pos hc]
          rcases h : splitAtSubBy charEq ['>'] cs with _ | ⟨t, post⟩
          · rfl
          · have := splitAtSubBy_len_lt charEq ['>'] cs t post (by simp) h
            simp only [List.length_cons] at h1 h2
            exact ih f2 post (by omega) (by omega)
        · rw [if_neg hc, if_neg hc]
          simp only [List.length_cons] at h1 h2
          exact congrArg (c :: ·) (ih f2 cs (by omega) (by omega))

theorem stripTags_nil : stripTags [] = [] := rfl

theorem stripTags_cons_ne (c : Char) (cs : List Char) (h : ¬c = '<') :
    stripTags (c :: cs) = c :: stripTags cs := by
  unfold stripTags
  conv_lhs => rw [stripTagsF]
  rw [if_neg h]
  simp only [List.length_cons]

theorem stripTags_tag (cs t post : List Char)
    (h : splitAtSubBy charEq ['>'] cs = some (t, post)) :
    stripTags ('<' :: cs) = stripTags post := by
  unfold stripTags
  conv_lhs => rw [stripTagsF]
  rw [if_pos rfl, h]
  have := splitAtSubBy_len_lt charEq ['>'] cs t post (by simp) h
  simp only [List.length_cons]
  exact stripTagsF_fuel (cs.length + 1) (post.length + 1) post (by omega)
    (by omega)

theorem stripTags_chunk (d r : List Char) (h : ∀ c ∈ d, ¬c = '<') :
    stripTags (d ++ r) = d ++ stripTags r := by
  induction d with
  | nil => rfl
  | cons c d2 ih =>
    show stripTags (c :: (d2 ++ r)) = c :: (d2 ++ stripTags r)
    rw [stripTags_cons_ne c (d2 ++ r) (h c (by simp)),
      ih (fun x hx => h x (List.mem_cons_of_mem c hx))]

theorem containsSub_append_right (pat x y : List Char)
    (h : containsSub pat y = true) : containsSub pat (x ++ y) = true := by
  unfold containsSub at h ⊢
  induction x with
  | nil => simpa using h
  | cons c x2 ih =>
    show (splitAtSubBy charEq pat (c :: (x2 ++ y))).isSome = true
    by_cases hpre : isPrefixBy charEq pat (c :: (x2 ++ y)) = true
    · rw [splitAtSubBy_cons_pos charEq pat c (x2 ++ y) hpre]
      rfl
    · rw [Bool.not_eq_true] at hpre
      rw [splitAtSubBy_cons_neg charEq pat c (x2 ++ y) hpre]
      rcases h2 : splitAtSubBy charEq pat (x2 ++ y) with _ | ⟨p, q⟩
      · rw [h2] at ih
        cases ih
      · rfl

theorem containsSub_prefix (pat b : List Char) :
    containsSub pat (pat ++ b) = true := by
  have h := containsSub_of_append pat [] b
  simpa using h

theorem containsSub_time (iso R : List Char) :
    containsSub (str "<time datetime=\"" ++ iso ++ str "\" />")
      (str "<time datetime=\"" ++ (iso ++ (str "\" />" ++ R))) = true := by
  have h : str "<time datetime=\"" ++ (iso ++ (str "\" />" ++ R)) =
      (str "<time datetime=\"" ++ iso ++ str "\" />") ++ R := by
    simp [List.append_assoc]
  rw [h]
  exact containsSub_prefix _ _

/-! ## Claim C2: empty-version precedence -/

/-- C2 counterexample: the claim states `isNewer("", "1.0.0") == false` and
`isNewer("", "") == false`, but `isNewerVersion` returns `true` whenever
either argument is empty (the source comments "If either is missing,
consider it new"). -/
theorem isNewerVersion_empty_cex :
    isNewerVersion (str "") (str "1.0.0") = true ∧
    isNewerVersion (str "") (str "") = true := by decide

/-- C2 amended: `isNewerVersion` returns `true` whenever either argument is
empty; the underlying `compareVersions` does give empty versions the lowest
precedence (`compare("", v) = -1` for non-empty `v`, `compare("", "") = 0`),
but `isNewerVersion` never consults it when an argument is empty. -/
theorem isNewerVersion_empty_amended :
    (∀ v : List Char, isNewerVersion v [] = true) ∧
    (∀ v : List Char, isNewerVersion [] v = true) ∧
    compareVersions [] [] = 0 ∧
    (∀ (c : Char) (v : List Char),
      compareVersions [] (c :: v) = -1 ∧ compareVersions (c :: v) [] = 1) := by
  refine ⟨?_, ?_, rfl, ?_⟩
  · intro v
    unfold isNewerVersion
    simp
  · intro v
    unfold isNewerVersion
    simp
  · intro c v
    constructor
    · unfold compareVersions
      rw [if_neg (by simp), if_pos (by simp)]
    · unfold compareVersions
      rw [if_neg (by simp), if_neg (by simp), if_pos (by simp)]

/-! ## Claim C4: pass-2 admission -/

/-- C4: a pass-1 survivor with a non-empty extracted version is admitted
exactly when the table has no head version or its version compares newer
than the head's (`isNewerVersion`, which on two non-empty versions is
`compareVersions > 0`); an empty extracted version is admitted
unconditionally.  With head version `1.2.0`, candidate version `1.1.9` is
not admitted and `1.3.0` is. -/
theorem pass2_cons (evd : GitHubPullRequest → List Char × GitHubPullRequest)
    (hV : List Char) (pr : GitHubPullRequest) (rest : List GitHubPullRequest) :
    pass2 evd hV (pr :: rest) =
      if (evd pr).1 = [] ∨ hV = [] ∨ isNewerVersion (evd pr).1 hV = true
      then ((evd pr).2, (evd pr).1) :: pass2 evd hV rest
      else pass2 evd hV rest := by
  conv_lhs => rw [pass2]
  by_cases h1 : (evd pr).1 = []
  · rw [if_neg (by simp [h1]), if_pos (Or.inl h1)]
  · rw [if_pos (by simp [h1])]
    by_cases h2 : hV = []
    · rw [if_pos h2, if_pos (Or.inr (Or.inl h2))]
    · rw [if_neg h2]
      by_cases h3 : isNewerVersion (evd pr).1 hV = true
      · rw [if_pos h3, if_pos (Or.inr (Or.inr h3))]
      · rw [if_neg h3, if_neg (by simp [h1, h2, h3])]

theorem pass2_version_admission
    (evd : GitHubPullRequest → List Char × GitHubPullRequest)
    (hV : List Char) (prs : List GitHubPullRequest) (v w : List Char)
    (hv : v ≠ []) (hw : w ≠ []) :
    pass2 evd hV prs = prs.filterMap (fun pr =>
      if (evd pr).1 = [] ∨ hV = [] ∨ isNewerVersion (evd pr).1 hV = true
      then some ((evd pr).2, (evd pr).1) else none) ∧
    (isNewerVersion v w = true ↔ 0 < compareVersions v w) ∧
    pass2 (fun p => (str "1.1.9", p)) (str "1.2.0") [pr5] = [] ∧
    pass2 (fun p => (str "1.3.0", p)) (str "1.2.0") [pr5] =
      [(pr5, str "1.3.0")] := by
  refine ⟨?_, ?_, by decide, by decide⟩
  · induction prs with
    | nil => rfl
    | cons pr rest ih =>
      rw [List.filterMap_cons, pass2_cons, ih]
      by_cases h : (evd pr).1 = [] ∨ hV = [] ∨ isNewerVersion (evd pr).1 hV = true
      · rw [if_pos h, if_pos h]
      · rw [if_neg h, if_neg h]
  · unfold isNewerVersion
    rw [if_neg (by simp [hv, hw])]
    simp

/-- C4 witness. -/
theorem pass2_version_admission_witness :
    isNewerVersion (str "1.3.0") (str "1.2.0") = true ↔
      0 < compareVersions (str "1.3.0") (str "1.2.0") :=
  (pass2_version_admission fallbackEvd [] [] (str "1.3.0") (str "1.2.0")
    (by decide) (by decide)).2.1

/-! ## Claim C7: VersionExtractor failure containment -/

/-- C7: every manifest-fetch failure (network error, non-OK status, missing
content, bad base64, bad JSON, missing version field) is absorbed: the
extractor returns the title/body fallback of the detailed record and never
propagates the failure; and the fallback itself returns the empty string
when neither the title nor the body matches the version pattern. -/
theorem extractVersion_failure_containment
    (pr : GitHubPullRequest) (detail : Option GitHubPullRequest)
    (m : ManifestFetch) (hm : manifestFails m = true) :
    extractVersionAndPRDetails detail m pr =
      (extractVersionFromPRText (detailedOf detail pr),
        detailedOf detail pr) ∧
    (∀ q : GitHubPullRequest, findVersionToken q.title = none →
      (∀ b, q.body = some b → findVersionToken b = none) →
      extractVersionFromPRText q = []) := by
  constructor
  · unfold extractVersionAndPRDetails manifestStep
    by_cases hsha : shaOf (detailedOf detail pr) = []
    · rw [if_pos hsha]
    · rw [if_neg hsha]
      cases m with
      | netError => rfl
      | badStatus code =>
        dsimp only
        by_cases h404 : code = 404
        · rw [if_pos h404]
        · rw [if_neg h404]
      | noContentField => rfl
      | badBase64 => rfl
      | badJson => rfl
      | noVersionField => rfl
      | version v =>
        unfold manifestFails at hm
        rw [List.isEmpty_iff] at hm
        dsimp only
        rw [if_pos hm]
  · intro q h1 h2
    unfold extractVersionFromPRText
    rw [h1]
    dsimp only
    cases hb : q.body with
    | none => rfl
    | some b =>
      dsimp only
      by_cases hbe : b = []
      · rw [if_pos hbe]
      · rw [if_neg hbe, h2 b hb]
        rfl

/-- C7 witness. -/
theorem extractVersion_failure_containment_witness :
    extractVersionAndPRDetails none ManifestFetch.netError pr2 =
      (extractVersionFromPRText (detailedOf none pr2), detailedOf none pr2) :=
  (extractVersion_failure_containment pr2 none ManifestFetch.netError
    (by decide)).1

/-! ## Claim C10: the candidate window -/

/-- C10: the single pull-request fetch asks for one page of at most 100
closed PRs sorted by most-recent update, and returns exactly the response
items that are merged into the configured branch; every candidate comes
from that one response page. -/
theorem fetchMergedPRs_window (settings : ExtensionSettings)
    (resp : List GitHubPullRequest)
    (ho : settings.repoOwner ≠ []) (hr : settings.repoName ≠ []) :
    pullsQueryParams =
      [(str "state", str "closed"), (str "sort", str "updated"),
       (str "direction", str "desc"), (str "per_page", str "100")] ∧
    fetchMergedPRs settings true resp = Except.ok (resp.filter (fun pr =>
      (match pr.merged_at with
       | some s => !s.isEmpty
       | none => false)
      && pr.base_ref = settings.branchName)) ∧
    (∀ out, fetchMergedPRs settings true resp = Except.ok out →
      ∀ pr ∈ out, pr ∈ resp) := by
  have heq : fetchMergedPRs settings true resp =
      Except.ok (resp.filter (fun pr =>
        (match pr.merged_at with
         | some s => !s.isEmpty
         | none => false)
        && pr.base_ref = settings.branchName)) := by
    unfold fetchMergedPRs
    rw [if_neg (by simp [ho, hr])]
    rfl
  refine ⟨rfl, heq, ?_⟩
  intro out hout pr hpr
  rw [heq] at hout
  cases hout
  exact List.mem_of_mem_filter hpr

/-- C10 witness. -/
theorem fetchMergedPRs_window_witness :
    fetchMergedPRs ⟨[], str "o", str "r", str "main", [], [], [], []⟩ true
      [pr2, prU] = Except.ok [pr2] :=
  ((fetchMergedPRs_window ⟨[], str "o", str "r", str "main", [], [], [], []⟩
    [pr2, prU] (by decide) (by decide)).2.1).trans
    (congrArg Except.ok (by decide))

/-! ## Claim C3: the pass-1 date filter -/

/-- C3 failing input: `content3` has a head entry with release date
`30/08/2025`, parsed by the table parser to 30 August 2025, and `pr5` was
merged 15 September 2025 — strictly after the head's release instant — yet
pass 1 drops it, because the filter re-parses the raw string with the
native parser (`new Date("30/08/2025")` is invalid, and every comparison
against an invalid date is false). -/
theorem pass1_native_reparse_bug :
    (getLatestEntryFromTable content3).entries =
      [⟨str "2.0.0", str "30/08/2025", mkDate 2025 8 30, some 4⟩] ∧
    (getLatestEntryFromTable content3).releaseDate = str "30/08/2025" ∧
    parseTableDate (str "30/08/2025") = some (mkDate 2025 8 30) ∧
    prReleaseDateOf now0 pr5 = some ⟨2025, 9, 15, 10, 0, 0⟩ ∧
    (mkDate 2025 8 30).key < (JsDate.mk 2025 9 15 10 0 0).key ∧
    jsDateParse (str "30/08/2025") = none ∧
    [pr5].filter (pass1 (getLatestEntryFromTable content3) now0) = [] := by
  decide

/-! ## Claim C9: clock dependence for unmerged candidates -/

/-- C9 counterexample: the claim says an unmerged candidate always passes
the pass-1 date filter because its substituted clock time exceeds any past
head date; but with head release date `30/08/2025` (a past date the table
parser reads fine) the native re-parse fails and the unmerged candidate is
dropped. -/
theorem unmerged_candidate_dropped_cex :
    prU.merged_at = none ∧
    (getLatestEntryFromTable content3).releaseDate = str "30/08/2025" ∧
    parseTableDate (str "30/08/2025") = some (mkDate 2025 8 30) ∧
    (mkDate 2025 8 30).key < now0.key ∧
    pass1 (getLatestEntryFromTable content3) now0 prU = false := by decide

/-- C9 amended: an unmerged candidate's release instant is the current
clock, so it passes pass 1 exactly when the head's raw release-date string
is native-parseable to an instant before the clock (not for every past
head date); and the formatted row's release-date cell carries the clock's
date, so the output depends on the wall clock. -/
theorem unmerged_candidate_amended (latest : LatestEntry) (now t : JsDate)
    (pr : GitHubPullRequest) (v : List Char)
    (hm : pr.merged_at = none)
    (hdup : latest.entries.any (fun e => e.prNumber = some pr.number) = false)
    (hrd : latest.releaseDate ≠ [])
    (hparse : jsDateParse latest.releaseDate = some t)
    (ht : t.key < now.key) :
    pass1 latest now pr = true ∧
    ∃ row, formatPRForConfluence now pr v = some row ∧
      containsSub (str "<time datetime=\"" ++ isoDateString now ++ str "\" />")
        row = true := by
  constructor
  · unfold pass1
    rw [if_neg (by rw [hdup]; simp), if_neg hrd]
    unfold prReleaseDateOf
    rw [hm, hparse]
    unfold jsGt
    simp [ht]
  · unfold formatPRForConfluence
    rw [hm]
    refine ⟨_, rfl, ?_⟩
    simp only [List.append_assoc]
    iterate 15 apply containsSub_append_right
    exact containsSub_time (isoDateString now) _

/-- C9 witness. -/
theorem unmerged_candidate_amended_witness :
    pass1 (getLatestEntryFromTable content0) now0 prU = true :=
  (unmerged_candidate_amended (getLatestEntryFromTable content0) now0
    (mkDate 2025 1 2) prU [] (by decide) (by decide) (by decide) (by decide)
    (by decide)).1

/-! ## Claim C1: idempotence of the reconciliation pass -/

/-- C1 failing input: candidate `pr2` has no extractable version, so its
appended row has an empty version cell; the table parser skips such rows,
duplicate suppression never sees the PR number, and an immediately
repeated run with the same candidates admits `pr2` again (the second run's
admitted list is non-empty, not zero). -/
theorem reconcile_readmits_unversioned_candidate :
    admittedPRs fallbackEvd now0 content0 [pr2] = [(pr2, [])] ∧
    admittedPRs fallbackEvd now0
      ((appendPRsToContent fallbackEvd now0 content0 [pr2]).getD []) [pr2] =
      [(pr2, [])] := by decide

/-! ## Claim C5: the table merger -/

/-- C5 counterexample: on a document with a stray `</table>` before its
only table, the merger splices the rows at the stray token — the table's
own content is left unchanged and the text before the table is modified,
contradicting the claim that rows are always inserted immediately before
the table's closing boundary with surrounding content preserved. -/
theorem mergeRows_stray_cex :
    hasChangelogTable strayDoc = true ∧
    findTableBlock strayDoc = some (str "<tr><td>a</td></tr>") ∧
    mergeRows strayDoc [strayRow] =
      strayRow ++ str "\n</table><table><tr><td>a</td></tr></table>" ∧
    findTableBlock (mergeRows strayDoc [strayRow]) =
      some (str "<tr><td>a</td></tr>") := by decide

/-- C5 amended: merging with zero candidates returns the document
byte-identical; when a table exists, the rows are inserted immediately
before the document's first case-insensitive `</table>` token (which is
the table's closing boundary whenever no stray closing token precedes the
table), with everything before and after that token preserved; with no
table, a heading and a fresh table holding exactly the new rows are
appended after the document. -/
theorem mergeRows_amended (doc : List Char) (rows : List (List Char))
    (pre post : List Char)
    (evd : GitHubPullRequest → List Char × GitHubPullRequest) (now : JsDate)
    (h1 : hasChangelogTable doc = true)
    (h2 : splitAtSubCI (str "</table>") doc = some (pre, post)) :
    appendPRsToContent evd now doc [] = some doc ∧
    mergeRows doc rows =
      pre ++ List.intercalate ['\n'] rows ++ str "\n</table>" ++ post ∧
    (∀ d2 : List Char, hasChangelogTable d2 = false →
      mergeRows d2 rows =
        d2 ++ '\n' :: (tableHeader ++ List.intercalate ['\n'] rows ++
          str "</table>")) := by
  refine ⟨rfl, ?_, ?_⟩
  · unfold mergeRows
    rw [if_pos h1, h2]
  · intro d2 hd2
    unfold mergeRows
    rw [if_neg (by rw [hd2]; simp)]

/-- C5 witness. -/
theorem mergeRows_amended_witness :
    mergeRows (str "<table></table>x") [str "<tr>r</tr>"] =
      str "<table>" ++ List.intercalate ['\n'] [str "<tr>r</tr>"] ++
        str "\n</table>" ++ str "x" :=
  (mergeRows_amended (str "<table></table>x") [str "<tr>r</tr>"]
    (str "<table>") (str "x") fallbackEvd now0 (by decide) (by decide)).2.1

/-! ## Claim C6: round trip (counterexample part) -/

/-- C6 counterexample: `pr6`'s body injects `<th>` into the changelog
cell; the formatted row is merged but the table parser skips every row
containing `<th`, so no entry with change-request number 42 (nor any
entry at all) is recovered — the round trip fails. -/
theorem roundtrip_markup_cex :
    extractVersionFromPRText pr6 = str "1.2.3" ∧
    extractChangelogFromPR pr6 = str "<th>" ∧
    (getLatestEntryFromTable
      ((appendPRsToContent fallbackEvd now0 [] [pr6]).getD [])).entries =
      [] := by decide

/-! ## Claim C8: DateParser totality and precedence -/

theorem firstSome_none_iff : ∀ (l : List (Option JsDate)) (base : Option JsDate),
    (l.foldr (fun r acc => match r with | some d => some d | none => acc)
      base = none) ↔
    (l.all (fun r => r = none) = true ∧ base = none) := by
  intro l base
  induction l with
  | nil => simp
  | cons a l2 ih => rcases a with _ | d <;> simp [ih]

theorem parseTableDate_eq_foldr (s : List Char) (hs : s ≠ []) :
    parseTableDate s =
      (tableDateFormats (trimChars s)).foldr
        (fun r acc => match r with | some d => some d | none => acc)
        (jsDateParse (trimChars s)) := by
  unfold parseTableDate
  rw [if_neg hs]
  rfl

theorem dropWhile_eq_self_of (p : Char → Bool) (s : List Char)
    (h : ∀ c ∈ s, p c = false) : s.dropWhile p = s := by
  cases s with
  | nil => rfl
  | cons c cs =>
    rw [List.dropWhile_cons, h c (by simp)]
    simp

theorem trimChars_no_ws (s : List Char) (h : ∀ c ∈ s, isWs c = false) :
    trimChars s = s := by
  unfold trimChars
  rw [dropWhile_eq_self_of isWs s h,
    dropWhile_eq_self_of isWs s.reverse
      (fun c hc => h c (List.mem_reverse.mp hc)),
    List.reverse_reverse]

theorem isDig_ge48 (c : Char) (h : isDig c = true) : 48 ≤ c.toNat := by
  unfold isDig at h
  simp only [Bool.and_eq_true, decide_eq_true_eq] at h
  exact h.1

theorem isWs_false_of_isDig (c : Char) (h : isDig c = true) :
    isWs c = false := by
  have h1 := isDig_le57 c h
  have h2 := isDig_ge48 c h
  unfold isWs
  have hsp : c ≠ ' ' := by intro he; subst he; simp at h2
  have htb : c ≠ '\t' := by intro he; subst he; simp at h2
  have hnl : c ≠ '\n' := by intro he; subst he; simp at h2
  have hcr : c ≠ '\r' := by intro he; subst he; simp at h2
  simp [hsp, htb, hnl, hcr]

theorem dig_mod (n : Nat) : dig (n % 10) = dig n := by
  unfold dig
  rw [Nat.mod_mod_of_dvd n (dvd_refl 10)]

theorem pad2_eq (d : Nat) (h : d < 100) :
    pad2 d = [dig (d / 10), dig (d % 10)] := by
  unfold pad2
  by_cases h10 : d < 10
  · rw [if_pos h10, natChars_lt10 d h10]
    have hz : d / 10 = 0 := by omega
    rw [hz, dig_mod]
    rfl
  · rw [if_neg h10, natChars_step d (by omega),
      natChars_lt10 (d / 10) (by omega), dig_mod]
    rfl

theorem takeDigits_zero (s : List Char) : takeDigits 0 s = ([], s) := by
  cases s <;> rfl

theorem takeDigits2_pair (a b : Char) (rest : List Char)
    (ha : isDig a = true) (hb : isDig b = true) :
    takeDigits 2 (a :: b :: rest) = ([a, b], rest) := by
  simp [takeDigits, ha, hb, takeDigits_zero]

theorem takeDigits4_quad (a b c d : Char)
    (ha : isDig a = true) (hb : isDig b = true) (hc : isDig c = true)
    (hd : isDig d = true) :
    takeDigits 4 [a, b, c, d] = ([a, b, c, d], []) := by
  simp [takeDigits, ha, hb, hc, hd]

theorem digitsVal_pad2 (d : Nat) (h : d < 100) :
    digitsVal [dig (d / 10), dig (d % 10)] = d := by
  unfold digitsVal
  simp only [List.foldl_cons, List.foldl_nil]
  rw [Nat.zero_mul, Nat.zero_add, digitVal_dig, digitVal_dig]
  have : d / 10 % 10 = d / 10 := Nat.mod_eq_of_lt (by omega)
  omega

theorem digitsVal_quad (y1 y2 y3 y4 : Nat)
    (h1 : y1 < 10) (h2 : y2 < 10) (h3 : y3 < 10) (h4 : y4 < 10) :
    digitsVal [dig y1, dig y2, dig y3, dig y4] =
      1000 * y1 + 100 * y2 + 10 * y3 + y4 := by
  unfold digitsVal
  simp only [List.foldl_cons, List.foldl_nil]
  rw [Nat.zero_mul, Nat.zero_add, digitVal_dig, digitVal_dig, digitVal_dig,
    digitVal_dig]
  have e1 : y1 % 10 = y1 := Nat.mod_eq_of_lt h1
  have e2 : y2 % 10 = y2 := Nat.mod_eq_of_lt h2
  have e3 : y3 % 10 = y3 := Nat.mod_eq_of_lt h3
  have e4 : y4 % 10 = y4 := Nat.mod_eq_of_lt h4
  omega

theorem validYMD_true (y m d : Nat) (hy : 1 ≤ y) (hm1 : 1 ≤ m)
    (hm2 : m ≤ 12) (hd1 : 1 ≤ d) (hd2 : d ≤ 28) :
    validYMD y m d = true := by
  unfold validYMD daysInMonth
  simp only [Bool.and_eq_true, decide_eq_true_eq]
  refine ⟨⟨⟨⟨hy, hm1⟩, hm2⟩, hd1⟩, ?_⟩
  split_ifs <;> omega

theorem parseWithFormat_dmy (d m y1 y2 y3 y4 : Nat)
    (hd1 : 1 ≤ d) (hd2 : d ≤ 12) (hm1 : 1 ≤ m) (hm2 : m ≤ 12)
    (h1 : y1 < 10) (h2 : y2 < 10) (h3 : y3 < 10) (h4 : y4 < 10)
    (hy : 1 ≤ 1000 * y1 + 100 * y2 + 10 * y3 + y4) :
    parseWithFormat '/' DOrder.dmy false
      (pad2 d ++ '/' :: pad2 m ++ '/' :: [dig y1, dig y2, dig y3, dig y4]) =
      some (mkDate (1000 * y1 + 100 * y2 + 10 * y3 + y4) m d) := by
  rw [pad2_eq d (by omega), pad2_eq m (by omega)]
  have e1 : takeDigits 2 (dig (d / 10) :: dig (d % 10) :: '/' ::
      dig (m / 10) :: dig (m % 10) :: '/' ::
      [dig y1, dig y2, dig y3, dig y4]) =
      ([dig (d / 10), dig (d % 10)], '/' :: dig (m / 10) :: dig (m % 10) ::
        '/' :: [dig y1, dig y2, dig y3, dig y4]) :=
    takeDigits2_pair _ _ _ (isDig_dig _) (isDig_dig _)
  have e2 : takeDigits 2 (dig (m / 10) :: dig (m % 10) :: '/' ::
      [dig y1, dig y2, dig y3, dig y4]) =
      ([dig (m / 10), dig (m % 10)], '/' :: [dig y1, dig y2, dig y3, dig y4]) :=
    takeDigits2_pair _ _ _ (isDig_dig _) (isDig_dig _)
  have e3 : takeDigits 4 [dig y1, dig y2, dig y3, dig y4] =
      ([dig y1, dig y2, dig y3, dig y4], []) :=
    takeDigits4_quad _ _ _ _ (isDig_dig _) (isDig_dig _) (isDig_dig _)
      (isDig_dig _)
  have hval : validYMD (1000 * y1 + 100 * y2 + 10 * y3 + y4) m d = true :=
    validYMD_true _ m d hy hm1 hm2 hd1 (by omega)
  show parseWithFormat '/' DOrder.dmy false (dig (d / 10) :: dig (d % 10) ::
      '/' :: dig (m / 10) :: dig (m % 10) :: '/' ::
      [dig y1, dig y2, dig y3, dig y4]) = _
  simp only [parseWithFormat, e1, e2, e3, expectChar,
    digitsVal_pad2 d (by omega : d < 100), digitsVal_pad2 m (by omega : m < 100),
    digitsVal_quad y1 y2 y3 y4 h1 h2 h3 h4, hval]
  simp [e1, e2, e3, hval, expectChar,
    digitsVal_pad2 d (show d < 100 by omega),
    digitsVal_pad2 m (show m < 100 by omega),
    digitsVal_quad y1 y2 y3 y4 h1 h2 h3 h4]

/-- C8: `parseTableDate` is total (`Option`-valued, the `try`/`catch`
chain never escapes); it returns `null` exactly when the input is empty or
no explicit format matches and the native fallback also fails or yields an
invalid calendar date (e.g. `31/02/2025`); and because day-first formats
are tried before month-first ones, an ambiguous all-numeric date with both
components at most 12 resolves day-first — in particular any
`dd/mm/yyyy` rendering parses to day `d`, month `m`. -/
theorem parseTableDate_props (d m y1 y2 y3 y4 : Nat)
    (hd1 : 1 ≤ d) (hd2 : d ≤ 12) (hm1 : 1 ≤ m) (hm2 : m ≤ 12)
    (h1 : y1 < 10) (h2 : y2 < 10) (h3 : y3 < 10) (h4 : y4 < 10)
    (hy : 1 ≤ 1000 * y1 + 100 * y2 + 10 * y3 + y4) :
    parseTableDate [] = none ∧
    (∀ s : List Char, parseTableDate s = none ↔
      (s = [] ∨ ((tableDateFormats (trimChars s)).all (fun r => r = none)
        = true ∧ jsDateParse (trimChars s) = none))) ∧
    parseTableDate (str "31/02/2025") = none ∧
    parseTableDate
      (pad2 d ++ '/' :: pad2 m ++ '/' :: [dig y1, dig y2, dig y3, dig y4]) =
      some (mkDate (1000 * y1 + 100 * y2 + 10 * y3 + y4) m d) := by
  refine ⟨rfl, ?_, by decide, ?_⟩
  · intro s
    by_cases hs : s = []
    · subst hs
      simp [parseTableDate]
    · rw [parseTableDate_eq_foldr s hs, firstSome_none_iff]
      simp [hs]
  · have hne : pad2 d ++ '/' :: pad2 m ++ '/' ::
        [dig y1, dig y2, dig y3, dig y4] ≠ [] := by
      rw [pad2_eq d (by omega)]
      simp
    have hallchars : ∀ c ∈ pad2 d ++ '/' :: pad2 m ++ '/' ::
        [dig y1, dig y2, dig y3, dig y4], isWs c = false := by
      rw [pad2_eq d (by omega), pad2_eq m (by omega)]
      intro c hc
      simp only [List.mem_append, List.mem_cons, List.not_mem_nil,
        or_false, or_assoc] at hc
      rcases hc with hc | hc | hc | hc | hc | hc | hc | hc | hc | hc <;>
        first
          | (subst hc; exact isWs_false_of_isDig _ (isDig_dig _))
          | (subst hc; rfl)
    unfold parseTableDate
    rw [if_neg hne]
    dsimp only
    rw [trimChars_no_ws _ hallchars,
      parseWithFormat_dmy d m y1 y2 y3 y4 hd1 hd2 hm1 hm2 h1 h2 h3 h4 hy]

/-- C8 witness: `03/04/2025` resolves day-first to 3 April 2025. -/
theorem parseTableDate_props_witness :
    parseTableDate (str "03/04/2025") = some (mkDate 2025 4 3) :=
  (parseTableDate_props 3 4 2 0 2 5 (by decide) (by decide) (by decide)
    (by decide) (by decide) (by decide) (by decide) (by decide)
    (by decide)).2.2.2

/-! ## Auxiliary lemmas for the round trip -/

theorem splitAtSubBy_through (f : Char → Char → Bool) (p0 : Char)
    (pt A ch Y : List Char)
    (hA : noSubFull f (p0 :: pt) A = true)
    (hch : ∀ c ∈ ch, ∀ p ∈ p0 :: pt, f p c = false)
    (hne : ch ≠ []) :
    splitAtSubBy f (p0 :: pt) (A ++ (ch ++ Y)) =
      (splitAtSubBy f (p0 :: pt) Y).map
        (fun pq => (A ++ (ch ++ pq.1), pq.2)) := by
  match ch, hne with
  | c :: cr, _ =>
    have h1 := splitAtSubBy_concat f p0 pt A c (cr ++ Y)
      (fun p hp => hch c (by simp) p hp) hA
    have h2 := splitAtSubBy_skip_chunk f p0 pt (c :: cr) Y
      (fun x hx => hch x hx p0 (by simp))
    simp only [List.cons_append] at h2 ⊢
    rw [h1, h2]
    rcases h : splitAtSubBy f (p0 :: pt) Y with _ | ⟨p, q⟩ <;> simp [h]

theorem isVerChar_of_isDig (c : Char) (h : isDig c = true) :
    isVerChar c = true := by
  unfold isVerChar
  rw [h]
  rfl

theorem natChars_verChars (m : Nat) :
    ∀ c ∈ natChars m, isVerChar c = true :=
  fun c hc => isVerChar_of_isDig c (natChars_digits m c hc)

theorem verStr_chars : ∀ (v : List Nat), ∀ c ∈ verStr v, isVerChar c = true := by
  intro v
  induction v with
  | nil => intro c hc; simp [verStr] at hc
  | cons k rest ih =>
    intro c hc
    cases rest with
    | nil => exact isVerChar_of_isDig c (natChars_digits k c hc)
    | cons k2 r2 =>
      rw [show verStr (k :: k2 :: r2) = natChars k ++ '.' :: verStr (k2 :: r2)
        from rfl, List.mem_append] at hc
      rcases hc with hc | hc
      · exact isVerChar_of_isDig c (natChars_digits k c hc)
      · rw [List.mem_cons] at hc
        rcases hc with hc | hc
        · subst hc; rfl
        · exact ih c hc

theorem verStr_ne_nil (v : List Nat) (hv : v ≠ []) : verStr v ≠ [] := by
  match v, hv with
  | [k], _ => exact natChars_ne_nil k
  | k :: k2 :: r2, _ =>
    show natChars k ++ '.' :: verStr (k2 :: r2) ≠ []
    simp

theorem isVerChar_ge46 (c : Char) (h : isVerChar c = true) : 46 ≤ c.toNat := by
  unfold isVerChar at h
  rw [Bool.or_eq_true] at h
  rcases h with h | h
  · have := isDig_ge48 c h
    omega
  · rw [decide_eq_true_eq] at h
    subst h
    decide

theorem any_nl_false (l : List Char) (h : ∀ c ∈ l, isVerChar c = true) :
    (l.any fun c => c = '\n') = false := by
  rw [List.any_eq_false]
  intro c hc
  have h46 := isVerChar_ge46 c (h c hc)
  simp only [decide_eq_true_eq]
  intro he
  subst he
  exact absurd h46 (by decide)

theorem isWs_false_of_isVerChar (c : Char) (h : isVerChar c = true) :
    isWs c = false := by
  have h46 := isVerChar_ge46 c h
  unfold isWs
  have hsp : c ≠ ' ' := by intro he; subst he; exact absurd h46 (by decide)
  have htb : c ≠ '\t' := by intro he; subst he; exact absurd h46 (by decide)
  have hnl : c ≠ '\n' := by intro he; subst he; exact absurd h46 (by decide)
  have hcr : c ≠ '\r' := by intro he; subst he; exact absurd h46 (by decide)
  simp [hsp, htb, hnl, hcr]

theorem takeWhile_eq_self_of (p : Char → Bool) :
    ∀ (l : List Char), (∀ c ∈ l, p c = true) → l.takeWhile p = l := by
  intro l
  induction l with
  | nil => intro _; rfl
  | cons c cs ih =>
    intro h
    rw [List.takeWhile_cons, h c (by simp),
      ih (fun x hx => h x (List.mem_cons_of_mem c hx))]
    rfl

theorem verChar_all_lowerEq (pat : List Char)
    (hpat : pat.all (fun p => !isVerChar p.toLower) = true)
    (ch : List Char) (hch : ∀ c ∈ ch, isVerChar c = true) :
    ∀ c ∈ ch, ∀ p ∈ pat, lowerEq p c = false := by
  intro c hc p hp
  rw [List.all_eq_true] at hpat
  have h2 := hpat p hp
  rw [Bool.not_eq_true'] at h2
  exact lowerEq_false_left p c h2 (hch c hc)

theorem verChar_all_charEq (pat : List Char)
    (hpat : pat.all (fun p => !isVerChar p) = true)
    (ch : List Char) (hch : ∀ c ∈ ch, isVerChar c = true) :
    ∀ c ∈ ch, ∀ p ∈ pat, charEq p c = false := by
  intro c hc p hp
  rw [List.all_eq_true] at hpat
  have h2 := hpat p hp
  rw [Bool.not_eq_true'] at h2
  exact charEq_false_left p c h2 (hch c hc)

theorem cmpParts_self : ∀ (l : List Nat), cmpParts l l = 0 := by
  intro l
  induction l with
  | nil => simp [cmpParts]
  | cons a as ih =>
    rw [show cmpParts (a :: as) (a :: as) =
      (if a < a then (1 : Int) else if a < a then -1 else cmpParts as as)
      from by simp [cmpParts]]
    rw [if_neg (by omega), if_neg (by omega)]
    exact ih

theorem compareVersions_self (s : List Char) : compareVersions s s = 0 := by
  unfold compareVersions
  by_cases hs : s = []
  · rw [if_pos (by simp [hs])]
  · rw [if_neg (by simp [hs])]
    rw [if_neg hs, if_neg hs]
    cases h : coerce s with
    | some t =>
      dsimp only
      unfold semverCompare
      rw [if_neg (by simp), if_neg (by simp)]
      unfold cmpNat
      rw [if_neg (by omega), if_neg (by omega)]
    | none =>
      dsimp only
      exact cmpParts_self _

theorem intercalate_singleton (x : List Char) :
    List.intercalate ['\n'] [x] = x := by
  simp [List.intercalate]

/-! ## The C6 round trip: formatting one admitted change request into an
empty document and parsing the merged document back -/

theorem splitAtSubBy_M (f : Char → Char → Bool) (p0 : Char)
    (pt A w B nch C : List Char)
    (hw : ∀ c ∈ w, ∀ p ∈ p0 :: pt, f p c = false) (hwne : w ≠ [])
    (hn : ∀ c ∈ nch, ∀ p ∈ p0 :: pt, f p c = false) (hnne : nch ≠ [])
    (hA : noSubFull f (p0 :: pt) A = true)
    (hB : noSubFull f (p0 :: pt) B = true) :
    splitAtSubBy f (p0 :: pt) (A ++ (w ++ (B ++ (nch ++ C)))) =
      (splitAtSubBy f (p0 :: pt) C).map
        (fun pq => (A ++ (w ++ (B ++ (nch ++ pq.1))), pq.2)) := by
  rw [splitAtSubBy_through f p0 pt A w (B ++ (nch ++ C)) hA hw hwne,
    splitAtSubBy_through f p0 pt B nch C hB hn hnne]
  rcases h : splitAtSubBy f (p0 :: pt) C with _ | ⟨p, q⟩ <;> simp [h]

theorem findRowBlock_concrete (A X pre mid attrs afterOpen row rest : List Char)
    (h1 : splitAtSubBy lowerEq ('<' :: str "tr") A = some (pre, mid))
    (h2 : splitAtSubBy charEq ['>'] mid = some (attrs, afterOpen))
    (h3 : splitAtSubBy lowerEq (str "</tr>") (afterOpen ++ X) =
      some (row, rest)) :
    findRowBlock (A ++ X) = some (row, rest) := by
  unfold findRowBlock splitTagOpenCI splitAtSubCI
  rw [splitAtSubBy_found_append lowerEq ('<' :: str "tr") A X pre mid h1]
  dsimp only
  rw [splitAtSubBy_found_append charEq ['>'] mid X attrs afterOpen h2]
  dsimp only
  exact h3

theorem findCellBlock_concrete (A X pre mid attrs afterOpen cell rest : List Char)
    (h1 : splitAtSubBy lowerEq ('<' :: str "td") A = some (pre, mid))
    (h2 : splitAtSubBy charEq ['>'] mid = some (attrs, afterOpen))
    (h3 : splitAtSubBy lowerEq (str "</td>") (afterOpen ++ X) =
      some (cell, rest)) :
    findCellBlock (A ++ X) = some (cell, rest) := by
  unfold findCellBlock splitTagOpenCI splitAtSubCI
  rw [splitAtSubBy_found_append lowerEq ('<' :: str "td") A X pre mid h1]
  dsimp only
  rw [splitAtSubBy_found_append charEq ['>'] mid X attrs afterOpen h2]
  dsimp only
  exact h3

theorem formatPR_row (n : Nat) (c : Char) (t : List Char) :
    formatPRForConfluence now0 (prRT n) (c :: t) =
      some (str "\n<tr>\n  <td>Minor</td>\n  <td><h4>" ++ ((c :: t) ++ (mergedSegB ++
        (natChars n ++ str "</a></td>\n  <td>alice (developer)</td>\n  <td></td>\n  <td><ac:structured-macro ac:name=\"status\" ac:schema-version=\"1\">\n    <ac:parameter ac:name=\"colour\">Orange</ac:parameter>\n    <ac:parameter ac:name=\"title\">Published</ac:parameter>\n  </ac:structured-macro></td>\n  <td><time datetime=\"2025-09-07\" /></td>\n  <td></td>\n</tr>")))) := by
  rw [show formatPRForConfluence now0 (prRT n) (c :: t) =
    some (str "\n<tr>\n  <td>Minor</td>\n  <td>" ++
      (str "<h4>" ++ (c :: t) ++ str "</h4>") ++ str "</td>\n  <td>" ++
      (str "<a href=\"" ++ str "https://example.com/pull/1" ++ str "\">#" ++
        natChars n ++ str "</a>") ++ str "</td>\n  <td>" ++
      str "alice (developer)" ++ str "</td>\n  <td>" ++ ([] : List Char) ++
      str "</td>\n  <td>" ++ statusPill ++ str "</td>\n  <td>" ++
      str "<time datetime=\"2025-09-07\" />" ++ str "</td>\n  <td>" ++
      ([] : List Char) ++ str "</td>\n</tr>") from rfl]
  simp only [List.append_assoc, List.cons_append, List.nil_append,
    List.append_nil]
  rfl

theorem append_row (n : Nat) (c : Char) (t : List Char) :
    appendPRsToContent (fun pr => (c :: t, pr)) now0 [] [prRT n] =
      some (mergedSegA ++ ((c :: t) ++ (mergedSegB ++
        (natChars n ++ mergedSegC)))) := by
  have hfmt := formatPR_row n c t
  have hfa : formatAll now0 [(prRT n, c :: t)] =
      some [str "\n<tr>\n  <td>Minor</td>\n  <td><h4>" ++ ((c :: t) ++
        (mergedSegB ++ (natChars n ++
          str "</a></td>\n  <td>alice (developer)</td>\n  <td></td>\n  <td><ac:structured-macro ac:name=\"status\" ac:schema-version=\"1\">\n    <ac:parameter ac:name=\"colour\">Orange</ac:parameter>\n    <ac:parameter ac:name=\"title\">Published</ac:parameter>\n  </ac:structured-macro></td>\n  <td><time datetime=\"2025-09-07\" /></td>\n  <td></td>\n</tr>")))] := by
    unfold formatAll
    rw [hfmt]
    rfl
  unfold appendPRsToContent
  rw [if_neg (by simp : ¬([prRT n] = []))]
  dsimp only
  rw [show getLatestEntryFromTable ([] : List Char) = ⟨[], [], []⟩ from rfl]
  rw [show List.filter (pass1 ⟨[], [], []⟩ now0) [prRT n] = [prRT n] from rfl]
  rw [if_neg (by simp : ¬([prRT n] = []))]
  rw [show pass2 (fun pr => (c :: t, pr)) [] [prRT n] =
    [(prRT n, c :: t)] from rfl]
  rw [if_neg (by simp : ¬([(prRT n, c :: t)] = []))]
  rw [hfa]
  dsimp only
  unfold mergeRows
  rw [show hasChangelogTable ([] : List Char) = false from rfl]
  rw [if_neg (by simp)]
  rw [intercalate_singleton]
  simp only [List.append_assoc, List.cons_append, List.nil_append]
  rfl

theorem roundTable (n : Nat) (w : List Char)
    (hwc : ∀ x ∈ w, isVerChar x = true) (hwne : w ≠ []) :
    findTableBlock (mergedSegA ++ (w ++ (mergedSegB ++ (natChars n ++ mergedSegC)))) =
      some (str "\n  <tr>\n    <th>Type</th>\n    <th>Version</th>\n    <th>PR</th>\n    <th>Developer / QA</th>\n    <th>Change Log</th>\n    <th>Status</th>\n    <th>Release Date</th>\n    <th>Artifact Link</th>\n  </tr>\n<tr>\n  <td>Minor</td>\n  <td><h4>" ++ (w ++ (mergedSegB ++ (natChars n ++ str "</a></td>\n  <td>alice (developer)</td>\n  <td></td>\n  <td><ac:structured-macro ac:name=\"status\" ac:schema-version=\"1\">\n    <ac:parameter ac:name=\"colour\">Orange</ac:parameter>\n    <ac:parameter ac:name=\"title\">Published</ac:parameter>\n  </ac:structured-macro></td>\n  <td><time datetime=\"2025-09-07\" /></td>\n  <td></td>\n</tr>")))) := by
  have hM : splitAtSubBy lowerEq (str "</table>")
      (str "\n  <tr>\n    <th>Type</th>\n    <th>Version</th>\n    <th>PR</th>\n    <th>Developer / QA</th>\n    <th>Change Log</th>\n    <th>Status</th>\n    <th>Release Date</th>\n    <th>Artifact Link</th>\n  </tr>\n<tr>\n  <td>Minor</td>\n  <td><h4>" ++ (w ++ (mergedSegB ++ (natChars n ++ mergedSegC)))) =
      some (str "\n  <tr>\n    <th>Type</th>\n    <th>Version</th>\n    <th>PR</th>\n    <th>Developer / QA</th>\n    <th>Change Log</th>\n    <th>Status</th>\n    <th>Release Date</th>\n    <th>Artifact Link</th>\n  </tr>\n<tr>\n  <td>Minor</td>\n  <td><h4>" ++ (w ++ (mergedSegB ++ (natChars n ++ str "</a></td>\n  <td>alice (developer)</td>\n  <td></td>\n  <td><ac:structured-macro ac:name=\"status\" ac:schema-version=\"1\">\n    <ac:parameter ac:name=\"colour\">Orange</ac:parameter>\n    <ac:parameter ac:name=\"title\">Published</ac:parameter>\n  </ac:structured-macro></td>\n  <td><time datetime=\"2025-09-07\" /></td>\n  <td></td>\n</tr>"))), []) := by
    show splitAtSubBy lowerEq ('<' :: str "/table>")
      (str "\n  <tr>\n    <th>Type</th>\n    <th>Version</th>\n    <th>PR</th>\n    <th>Developer / QA</th>\n    <th>Change Log</th>\n    <th>Status</th>\n    <th>Release Date</th>\n    <th>Artifact Link</th>\n  </tr>\n<tr>\n  <td>Minor</td>\n  <td><h4>" ++ (w ++ (mergedSegB ++ (natChars n ++ mergedSegC)))) =
      some (str "\n  <tr>\n    <th>Type</th>\n    <th>Version</th>\n    <th>PR</th>\n    <th>Developer / QA</th>\n    <th>Change Log</th>\n    <th>Status</th>\n    <th>Release Date</th>\n    <th>Artifact Link</th>\n  </tr>\n<tr>\n  <td>Minor</td>\n  <td><h4>" ++ (w ++ (mergedSegB ++ (natChars n ++ str "</a></td>\n  <td>alice (developer)</td>\n  <td></td>\n  <td><ac:structured-macro ac:name=\"status\" ac:schema-version=\"1\">\n    <ac:parameter ac:name=\"colour\">Orange</ac:parameter>\n    <ac:parameter ac:name=\"title\">Published</ac:parameter>\n  </ac:structured-macro></td>\n  <td><time datetime=\"2025-09-07\" /></td>\n  <td></td>\n</tr>"))), [])
    rw [splitAtSubBy_M lowerEq '<' (str "/table>") (str "\n  <tr>\n    <th>Type</th>\n    <th>Version</th>\n    <th>PR</th>\n    <th>Developer / QA</th>\n    <th>Change Log</th>\n    <th>Status</th>\n    <th>Release Date</th>\n    <th>Artifact Link</th>\n  </tr>\n<tr>\n  <td>Minor</td>\n  <td><h4>") w
      mergedSegB (natChars n) mergedSegC
      (verChar_all_lowerEq ('<' :: str "/table>") (by decide) w hwc) hwne
      (verChar_all_lowerEq ('<' :: str "/table>") (by decide) (natChars n)
        (natChars_verChars n)) (natChars_ne_nil n) (by decide) (by decide)]
    rw [show splitAtSubBy lowerEq ('<' :: str "/table>") mergedSegC =
      some (str "</a></td>\n  <td>alice (developer)</td>\n  <td></td>\n  <td><ac:structured-macro ac:name=\"status\" ac:schema-version=\"1\">\n    <ac:parameter ac:name=\"colour\">Orange</ac:parameter>\n    <ac:parameter ac:name=\"title\">Published</ac:parameter>\n  </ac:structured-macro></td>\n  <td><time datetime=\"2025-09-07\" /></td>\n  <td></td>\n</tr>", []) from by decide]
    rfl
  unfold findTableBlock splitTagOpenCI splitAtSubCI
  rw [splitAtSubBy_found_append lowerEq ('<' :: str "table") mergedSegA
    (w ++ (mergedSegB ++ (natChars n ++ mergedSegC))) (str "\n\n<h2>Changelog</h2>\n") (str ">\n  <tr>\n    <th>Type</th>\n    <th>Version</th>\n    <th>PR</th>\n    <th>Developer / QA</th>\n    <th>Change Log</th>\n    <th>Status</th>\n    <th>Release Date</th>\n    <th>Artifact Link</th>\n  </tr>\n<tr>\n  <td>Minor</td>\n  <td><h4>") (by decide)]
  dsimp only
  rw [splitAtSubBy_found_append charEq ['>'] (str ">\n  <tr>\n    <th>Type</th>\n    <th>Version</th>\n    <th>PR</th>\n    <th>Developer / QA</th>\n    <th>Change Log</th>\n    <th>Status</th>\n    <th>Release Date</th>\n    <th>Artifact Link</th>\n  </tr>\n<tr>\n  <td>Minor</td>\n  <td><h4>")
    (w ++ (mergedSegB ++ (natChars n ++ mergedSegC))) [] (str "\n  <tr>\n    <th>Type</th>\n    <th>Version</th>\n    <th>PR</th>\n    <th>Developer / QA</th>\n    <th>Change Log</th>\n    <th>Status</th>\n    <th>Release Date</th>\n    <th>Artifact Link</th>\n  </tr>\n<tr>\n  <td>Minor</td>\n  <td><h4>") (by decide)]
  dsimp only
  rw [hM]

theorem roundRows (n : Nat) (w : List Char)
    (hwc : ∀ x ∈ w, isVerChar x = true) (hwne : w ≠ []) :
    collectRows (str "\n  <tr>\n    <th>Type</th>\n    <th>Version</th>\n    <th>PR</th>\n    <th>Developer / QA</th>\n    <th>Change Log</th>\n    <th>Status</th>\n    <th>Release Date</th>\n    <th>Artifact Link</th>\n  </tr>\n<tr>\n  <td>Minor</td>\n  <td><h4>" ++ (w ++ (mergedSegB ++ (natChars n ++ str "</a></td>\n  <td>alice (developer)</td>\n  <td></td>\n  <td><ac:structured-macro ac:name=\"status\" ac:schema-version=\"1\">\n    <ac:parameter ac:name=\"colour\">Orange</ac:parameter>\n    <ac:parameter ac:name=\"title\">Published</ac:parameter>\n  </ac:structured-macro></td>\n  <td><time datetime=\"2025-09-07\" /></td>\n  <td></td>\n</tr>")))) =
      [str "\n    <th>Type</th>\n    <th>Version</th>\n    <th>PR</th>\n    <th>Developer / QA</th>\n    <th>Change Log</th>\n    <th>Status</th>\n    <th>Release Date</th>\n    <th>Artifact Link</th>\n  ", str "\n  <td>Minor</td>\n  <td><h4>" ++ (w ++ (mergedSegB ++ (natChars n ++ str "</a></td>\n  <td>alice (developer)</td>\n  <td></td>\n  <td><ac:structured-macro ac:name=\"status\" ac:schema-version=\"1\">\n    <ac:parameter ac:name=\"colour\">Orange</ac:parameter>\n    <ac:parameter ac:name=\"title\">Published</ac:parameter>\n  </ac:structured-macro></td>\n  <td><time datetime=\"2025-09-07\" /></td>\n  <td></td>\n")))] := by
  have h3a : splitAtSubBy lowerEq (str "</tr>")
      (str "\n  <td>Minor</td>\n  <td><h4>" ++ (w ++ (mergedSegB ++ (natChars n ++ str "</a></td>\n  <td>alice (developer)</td>\n  <td></td>\n  <td><ac:structured-macro ac:name=\"status\" ac:schema-version=\"1\">\n    <ac:parameter ac:name=\"colour\">Orange</ac:parameter>\n    <ac:parameter ac:name=\"title\">Published</ac:parameter>\n  </ac:structured-macro></td>\n  <td><time datetime=\"2025-09-07\" /></td>\n  <td></td>\n</tr>")))) =
      some (str "\n  <td>Minor</td>\n  <td><h4>" ++ (w ++ (mergedSegB ++ (natChars n ++ str "</a></td>\n  <td>alice (developer)</td>\n  <td></td>\n  <td><ac:structured-macro ac:name=\"status\" ac:schema-version=\"1\">\n    <ac:parameter ac:name=\"colour\">Orange</ac:parameter>\n    <ac:parameter ac:name=\"title\">Published</ac:parameter>\n  </ac:structured-macro></td>\n  <td><time datetime=\"2025-09-07\" /></td>\n  <td></td>\n"))), []) := by
    show splitAtSubBy lowerEq ('<' :: str "/tr>")
      (str "\n  <td>Minor</td>\n  <td><h4>" ++ (w ++ (mergedSegB ++ (natChars n ++ str "</a></td>\n  <td>alice (developer)</td>\n  <td></td>\n  <td><ac:structured-macro ac:name=\"status\" ac:schema-version=\"1\">\n    <ac:parameter ac:name=\"colour\">Orange</ac:parameter>\n    <ac:parameter ac:name=\"title\">Published</ac:parameter>\n  </ac:structured-macro></td>\n  <td><time datetime=\"2025-09-07\" /></td>\n  <td></td>\n</tr>")))) =
      some (str "\n  <td>Minor</td>\n  <td><h4>" ++ (w ++ (mergedSegB ++ (natChars n ++ str "</a></td>\n  <td>alice (developer)</td>\n  <td></td>\n  <td><ac:structured-macro ac:name=\"status\" ac:schema-version=\"1\">\n    <ac:parameter ac:name=\"colour\">Orange</ac:parameter>\n    <ac:parameter ac:name=\"title\">Published</ac:parameter>\n  </ac:structured-macro></td>\n  <td><time datetime=\"2025-09-07\" /></td>\n  <td></td>\n"))), [])
    rw [splitAtSubBy_M lowerEq '<' (str "/tr>") (str "\n  <td>Minor</td>\n  <td><h4>") w
      mergedSegB (natChars n) (str "</a></td>\n  <td>alice (developer)</td>\n  <td></td>\n  <td><ac:structured-macro ac:name=\"status\" ac:schema-version=\"1\">\n    <ac:parameter ac:name=\"colour\">Orange</ac:parameter>\n    <ac:parameter ac:name=\"title\">Published</ac:parameter>\n  </ac:structured-macro></td>\n  <td><time datetime=\"2025-09-07\" /></td>\n  <td></td>\n</tr>")
      (verChar_all_lowerEq ('<' :: str "/tr>") (by decide) w hwc) hwne
      (verChar_all_lowerEq ('<' :: str "/tr>") (by decide) (natChars n)
        (natChars_verChars n)) (natChars_ne_nil n) (by decide) (by decide)]
    rw [show splitAtSubBy lowerEq ('<' :: str "/tr>") (str "</a></td>\n  <td>alice (developer)</td>\n  <td></td>\n  <td><ac:structured-macro ac:name=\"status\" ac:schema-version=\"1\">\n    <ac:parameter ac:name=\"colour\">Orange</ac:parameter>\n    <ac:parameter ac:name=\"title\">Published</ac:parameter>\n  </ac:structured-macro></td>\n  <td><time datetime=\"2025-09-07\" /></td>\n  <td></td>\n</tr>") =
      some (str "</a></td>\n  <td>alice (developer)</td>\n  <td></td>\n  <td><ac:structured-macro ac:name=\"status\" ac:schema-version=\"1\">\n    <ac:parameter ac:name=\"colour\">Orange</ac:parameter>\n    <ac:parameter ac:name=\"title\">Published</ac:parameter>\n  </ac:structured-macro></td>\n  <td><time datetime=\"2025-09-07\" /></td>\n  <td></td>\n", []) from by decide]
    rfl
  have hR1 : findRowBlock (str "\n  <tr>\n    <th>Type</th>\n    <th>Version</th>\n    <th>PR</th>\n    <th>Developer / QA</th>\n    <th>Change Log</th>\n    <th>Status</th>\n    <th>Release Date</th>\n    <th>Artifact Link</th>\n  </tr>\n<tr>\n  <td>Minor</td>\n  <td><h4>" ++ (w ++ (mergedSegB ++ (natChars n ++ str "</a></td>\n  <td>alice (developer)</td>\n  <td></td>\n  <td><ac:structured-macro ac:name=\"status\" ac:schema-version=\"1\">\n    <ac:parameter ac:name=\"colour\">Orange</ac:parameter>\n    <ac:parameter ac:name=\"title\">Published</ac:parameter>\n  </ac:structured-macro></td>\n  <td><time datetime=\"2025-09-07\" /></td>\n  <td></td>\n</tr>")))) =
      some (str "\n    <th>Type</th>\n    <th>Version</th>\n    <th>PR</th>\n    <th>Developer / QA</th>\n    <th>Change Log</th>\n    <th>Status</th>\n    <th>Release Date</th>\n    <th>Artifact Link</th>\n  ", str "\n<tr>\n  <td>Minor</td>\n  <td><h4>" ++ (w ++ (mergedSegB ++ (natChars n ++ str "</a></td>\n  <td>alice (developer)</td>\n  <td></td>\n  <td><ac:structured-macro ac:name=\"status\" ac:schema-version=\"1\">\n    <ac:parameter ac:name=\"colour\">Orange</ac:parameter>\n    <ac:parameter ac:name=\"title\">Published</ac:parameter>\n  </ac:structured-macro></td>\n  <td><time datetime=\"2025-09-07\" /></td>\n  <td></td>\n</tr>")))) :=
    findRowBlock_concrete (str "\n  <tr>\n    <th>Type</th>\n    <th>Version</th>\n    <th>PR</th>\n    <th>Developer / QA</th>\n    <th>Change Log</th>\n    <th>Status</th>\n    <th>Release Date</th>\n    <th>Artifact Link</th>\n  </tr>\n<tr>\n  <td>Minor</td>\n  <td><h4>") (w ++ (mergedSegB ++ (natChars n ++ str "</a></td>\n  <td>alice (developer)</td>\n  <td></td>\n  <td><ac:structured-macro ac:name=\"status\" ac:schema-version=\"1\">\n    <ac:parameter ac:name=\"colour\">Orange</ac:parameter>\n    <ac:parameter ac:name=\"title\">Published</ac:parameter>\n  </ac:structured-macro></td>\n  <td><time datetime=\"2025-09-07\" /></td>\n  <td></td>\n</tr>"))) (str "\n  ")
      (str ">\n    <th>Type</th>\n    <th>Version</th>\n    <th>PR</th>\n    <th>Developer / QA</th>\n    <th>Change Log</th>\n    <th>Status</th>\n    <th>Release Date</th>\n    <th>Artifact Link</th>\n  </tr>\n<tr>\n  <td>Minor</td>\n  <td><h4>") [] (str "\n    <th>Type</th>\n    <th>Version</th>\n    <th>PR</th>\n    <th>Developer / QA</th>\n    <th>Change Log</th>\n    <th>Status</th>\n    <th>Release Date</th>\n    <th>Artifact Link</th>\n  </tr>\n<tr>\n  <td>Minor</td>\n  <td><h4>") (str "\n    <th>Type</th>\n    <th>Version</th>\n    <th>PR</th>\n    <th>Developer / QA</th>\n    <th>Change Log</th>\n    <th>Status</th>\n    <th>Release Date</th>\n    <th>Artifact Link</th>\n  ")
      (str "\n<tr>\n  <td>Minor</td>\n  <td><h4>" ++ (w ++ (mergedSegB ++ (natChars n ++ str "</a></td>\n  <td>alice (developer)</td>\n  <td></td>\n  <td><ac:structured-macro ac:name=\"status\" ac:schema-version=\"1\">\n    <ac:parameter ac:name=\"colour\">Orange</ac:parameter>\n    <ac:parameter ac:name=\"title\">Published</ac:parameter>\n  </ac:structured-macro></td>\n  <td><time datetime=\"2025-09-07\" /></td>\n  <td></td>\n</tr>")))) (by decide) (by decide)
      (splitAtSubBy_found_append lowerEq (str "</tr>") (str "\n    <th>Type</th>\n    <th>Version</th>\n    <th>PR</th>\n    <th>Developer / QA</th>\n    <th>Change Log</th>\n    <th>Status</th>\n    <th>Release Date</th>\n    <th>Artifact Link</th>\n  </tr>\n<tr>\n  <td>Minor</td>\n  <td><h4>")
        (w ++ (mergedSegB ++ (natChars n ++ str "</a></td>\n  <td>alice (developer)</td>\n  <td></td>\n  <td><ac:structured-macro ac:name=\"status\" ac:schema-version=\"1\">\n    <ac:parameter ac:name=\"colour\">Orange</ac:parameter>\n    <ac:parameter ac:name=\"title\">Published</ac:parameter>\n  </ac:structured-macro></td>\n  <td><time datetime=\"2025-09-07\" /></td>\n  <td></td>\n</tr>"))) (str "\n    <th>Type</th>\n    <th>Version</th>\n    <th>PR</th>\n    <th>Developer / QA</th>\n    <th>Change Log</th>\n    <th>Status</th>\n    <th>Release Date</th>\n    <th>Artifact Link</th>\n  ") (str "\n<tr>\n  <td>Minor</td>\n  <td><h4>") (by decide))
  have hR2 : findRowBlock (str "\n<tr>\n  <td>Minor</td>\n  <td><h4>" ++ (w ++ (mergedSegB ++ (natChars n ++ str "</a></td>\n  <td>alice (developer)</td>\n  <td></td>\n  <td><ac:structured-macro ac:name=\"status\" ac:schema-version=\"1\">\n    <ac:parameter ac:name=\"colour\">Orange</ac:parameter>\n    <ac:parameter ac:name=\"title\">Published</ac:parameter>\n  </ac:structured-macro></td>\n  <td><time datetime=\"2025-09-07\" /></td>\n  <td></td>\n</tr>")))) =
      some (str "\n  <td>Minor</td>\n  <td><h4>" ++ (w ++ (mergedSegB ++ (natChars n ++ str "</a></td>\n  <td>alice (developer)</td>\n  <td></td>\n  <td><ac:structured-macro ac:name=\"status\" ac:schema-version=\"1\">\n    <ac:parameter ac:name=\"colour\">Orange</ac:parameter>\n    <ac:parameter ac:name=\"title\">Published</ac:parameter>\n  </ac:structured-macro></td>\n  <td><time datetime=\"2025-09-07\" /></td>\n  <td></td>\n"))), []) :=
    findRowBlock_concrete (str "\n<tr>\n  <td>Minor</td>\n  <td><h4>") (w ++ (mergedSegB ++ (natChars n ++ str "</a></td>\n  <td>alice (developer)</td>\n  <td></td>\n  <td><ac:structured-macro ac:name=\"status\" ac:schema-version=\"1\">\n    <ac:parameter ac:name=\"colour\">Orange</ac:parameter>\n    <ac:parameter ac:name=\"title\">Published</ac:parameter>\n  </ac:structured-macro></td>\n  <td><time datetime=\"2025-09-07\" /></td>\n  <td></td>\n</tr>"))) (str "\n")
      (str ">\n  <td>Minor</td>\n  <td><h4>") [] (str "\n  <td>Minor</td>\n  <td><h4>")
      (str "\n  <td>Minor</td>\n  <td><h4>" ++ (w ++ (mergedSegB ++ (natChars n ++ str "</a></td>\n  <td>alice (developer)</td>\n  <td></td>\n  <td><ac:structured-macro ac:name=\"status\" ac:schema-version=\"1\">\n    <ac:parameter ac:name=\"colour\">Orange</ac:parameter>\n    <ac:parameter ac:name=\"title\">Published</ac:parameter>\n  </ac:structured-macro></td>\n  <td><time datetime=\"2025-09-07\" /></td>\n  <td></td>\n")))) [] (by decide) (by decide) h3a
  rw [collectRows_step _ _ _ hR1, collectRows_step _ _ _ hR2,
    collectRows_none [] rfl]

theorem roundCells (n : Nat) (w : List Char)
    (hwc : ∀ x ∈ w, isVerChar x = true) (hwne : w ≠ []) :
    collectCells (str "\n  <td>Minor</td>\n  <td><h4>" ++ (w ++ (mergedSegB ++ (natChars n ++ str "</a></td>\n  <td>alice (developer)</td>\n  <td></td>\n  <td><ac:structured-macro ac:name=\"status\" ac:schema-version=\"1\">\n    <ac:parameter ac:name=\"colour\">Orange</ac:parameter>\n    <ac:parameter ac:name=\"title\">Published</ac:parameter>\n  </ac:structured-macro></td>\n  <td><time datetime=\"2025-09-07\" /></td>\n  <td></td>\n")))) =
      [str "Minor", str "<h4>" ++ (w ++ str "</h4>"), str "<a href=\"https://example.com/pull/1\">#" ++ (natChars n ++ str "</a>"),
        str "alice (developer)", [], statusPill, str "<time datetime=\"2025-09-07\" />", []] := by
  have hwtd := verChar_all_lowerEq ('<' :: str "/td>") (by decide) w hwc
  have hntd := verChar_all_lowerEq ('<' :: str "/td>") (by decide)
    (natChars n) (natChars_verChars n)
  have h3c2 : splitAtSubBy lowerEq (str "</td>")
      (str "<h4>" ++ (w ++ (mergedSegB ++ (natChars n ++ str "</a></td>\n  <td>alice (developer)</td>\n  <td></td>\n  <td><ac:structured-macro ac:name=\"status\" ac:schema-version=\"1\">\n    <ac:parameter ac:name=\"colour\">Orange</ac:parameter>\n    <ac:parameter ac:name=\"title\">Published</ac:parameter>\n  </ac:structured-macro></td>\n  <td><time datetime=\"2025-09-07\" /></td>\n  <td></td>\n")))) =
      some (str "<h4>" ++ (w ++ str "</h4>"), str "\n  <td><a href=\"https://example.com/pull/1\">#" ++ (natChars n ++ str "</a></td>\n  <td>alice (developer)</td>\n  <td></td>\n  <td><ac:structured-macro ac:name=\"status\" ac:schema-version=\"1\">\n    <ac:parameter ac:name=\"colour\">Orange</ac:parameter>\n    <ac:parameter ac:name=\"title\">Published</ac:parameter>\n  </ac:structured-macro></td>\n  <td><time datetime=\"2025-09-07\" /></td>\n  <td></td>\n")) := by
    show splitAtSubBy lowerEq ('<' :: str "/td>")
      (str "<h4>" ++ (w ++ (mergedSegB ++ (natChars n ++ str "</a></td>\n  <td>alice (developer)</td>\n  <td></td>\n  <td><ac:structured-macro ac:name=\"status\" ac:schema-version=\"1\">\n    <ac:parameter ac:name=\"colour\">Orange</ac:parameter>\n    <ac:parameter ac:name=\"title\">Published</ac:parameter>\n  </ac:structured-macro></td>\n  <td><time datetime=\"2025-09-07\" /></td>\n  <td></td>\n")))) =
      some (str "<h4>" ++ (w ++ str "</h4>"), str "\n  <td><a href=\"https://example.com/pull/1\">#" ++ (natChars n ++ str "</a></td>\n  <td>alice (developer)</td>\n  <td></td>\n  <td><ac:structured-macro ac:name=\"status\" ac:schema-version=\"1\">\n    <ac:parameter ac:name=\"colour\">Orange</ac:parameter>\n    <ac:parameter ac:name=\"title\">Published</ac:parameter>\n  </ac:structured-macro></td>\n  <td><time datetime=\"2025-09-07\" /></td>\n  <td></td>\n"))
    rw [splitAtSubBy_through lowerEq '<' (str "/td>") (str "<h4>") w
      (mergedSegB ++ (natChars n ++ str "</a></td>\n  <td>alice (developer)</td>\n  <td></td>\n  <td><ac:structured-macro ac:name=\"status\" ac:schema-version=\"1\">\n    <ac:parameter ac:name=\"colour\">Orange</ac:parameter>\n    <ac:parameter ac:name=\"title\">Published</ac:parameter>\n  </ac:structured-macro></td>\n  <td><time datetime=\"2025-09-07\" /></td>\n  <td></td>\n")) (by decide) hwtd hwne]
    rw [splitAtSubBy_found_append lowerEq ('<' :: str "/td>") mergedSegB
      (natChars n ++ str "</a></td>\n  <td>alice (developer)</td>\n  <td></td>\n  <td><ac:structured-macro ac:name=\"status\" ac:schema-version=\"1\">\n    <ac:parameter ac:name=\"colour\">Orange</ac:parameter>\n    <ac:parameter ac:name=\"title\">Published</ac:parameter>\n  </ac:structured-macro></td>\n  <td><time datetime=\"2025-09-07\" /></td>\n  <td></td>\n") (str "</h4>") (str "\n  <td><a href=\"https://example.com/pull/1\">#") (by decide)]
    rfl
  have h3c3 : splitAtSubBy lowerEq (str "</td>")
      (str "<a href=\"https://example.com/pull/1\">#" ++ (natChars n ++ str "</a></td>\n  <td>alice (developer)</td>\n  <td></td>\n  <td><ac:structured-macro ac:name=\"status\" ac:schema-version=\"1\">\n    <ac:parameter ac:name=\"colour\">Orange</ac:parameter>\n    <ac:parameter ac:name=\"title\">Published</ac:parameter>\n  </ac:structured-macro></td>\n  <td><time datetime=\"2025-09-07\" /></td>\n  <td></td>\n")) =
      some (str "<a href=\"https://example.com/pull/1\">#" ++ (natChars n ++ str "</a>"), str "\n  <td>alice (developer)</td>\n  <td></td>\n  <td><ac:structured-macro ac:name=\"status\" ac:schema-version=\"1\">\n    <ac:parameter ac:name=\"colour\">Orange</ac:parameter>\n    <ac:parameter ac:name=\"title\">Published</ac:parameter>\n  </ac:structured-macro></td>\n  <td><time datetime=\"2025-09-07\" /></td>\n  <td></td>\n") := by
    show splitAtSubBy lowerEq ('<' :: str "/td>")
      (str "<a href=\"https://example.com/pull/1\">#" ++ (natChars n ++ str "</a></td>\n  <td>alice (developer)</td>\n  <td></td>\n  <td><ac:structured-macro ac:name=\"status\" ac:schema-version=\"1\">\n    <ac:parameter ac:name=\"colour\">Orange</ac:parameter>\n    <ac:parameter ac:name=\"title\">Published</ac:parameter>\n  </ac:structured-macro></td>\n  <td><time datetime=\"2025-09-07\" /></td>\n  <td></td>\n")) =
      some (str "<a href=\"https://example.com/pull/1\">#" ++ (natChars n ++ str "</a>"), str "\n  <td>alice (developer)</td>\n  <td></td>\n  <td><ac:structured-macro ac:name=\"status\" ac:schema-version=\"1\">\n    <ac:parameter ac:name=\"colour\">Orange</ac:parameter>\n    <ac:parameter ac:name=\"title\">Published</ac:parameter>\n  </ac:structured-macro></td>\n  <td><time datetime=\"2025-09-07\" /></td>\n  <td></td>\n")
    rw [splitAtSubBy_through lowerEq '<' (str "/td>") (str "<a href=\"https://example.com/pull/1\">#")
      (natChars n) (str "</a></td>\n  <td>alice (developer)</td>\n  <td></td>\n  <td><ac:structured-macro ac:name=\"status\" ac:schema-version=\"1\">\n    <ac:parameter ac:name=\"colour\">Orange</ac:parameter>\n    <ac:parameter ac:name=\"title\">Published</ac:parameter>\n  </ac:structured-macro></td>\n  <td><time datetime=\"2025-09-07\" /></td>\n  <td></td>\n") (by decide) hntd (natChars_ne_nil n)]
    rw [show splitAtSubBy lowerEq ('<' :: str "/td>") (str "</a></td>\n  <td>alice (developer)</td>\n  <td></td>\n  <td><ac:structured-macro ac:name=\"status\" ac:schema-version=\"1\">\n    <ac:parameter ac:name=\"colour\">Orange</ac:parameter>\n    <ac:parameter ac:name=\"title\">Published</ac:parameter>\n  </ac:structured-macro></td>\n  <td><time datetime=\"2025-09-07\" /></td>\n  <td></td>\n") =
      some (str "</a>", str "\n  <td>alice (developer)</td>\n  <td></td>\n  <td><ac:structured-macro ac:name=\"status\" ac:schema-version=\"1\">\n    <ac:parameter ac:name=\"colour\">Orange</ac:parameter>\n    <ac:parameter ac:name=\"title\">Published</ac:parameter>\n  </ac:structured-macro></td>\n  <td><time datetime=\"2025-09-07\" /></td>\n  <td></td>\n") from by decide]
    rfl
  have hC1 : findCellBlock (str "\n  <td>Minor</td>\n  <td><h4>" ++ (w ++ (mergedSegB ++ (natChars n ++ str "</a></td>\n  <td>alice (developer)</td>\n  <td></td>\n  <td><ac:structured-macro ac:name=\"status\" ac:schema-version=\"1\">\n    <ac:parameter ac:name=\"colour\">Orange</ac:parameter>\n    <ac:parameter ac:name=\"title\">Published</ac:parameter>\n  </ac:structured-macro></td>\n  <td><time datetime=\"2025-09-07\" /></td>\n  <td></td>\n")))) =
      some (str "Minor", str "\n  <td><h4>" ++ (w ++ (mergedSegB ++ (natChars n ++ str "</a></td>\n  <td>alice (developer)</td>\n  <td></td>\n  <td><ac:structured-macro ac:name=\"status\" ac:schema-version=\"1\">\n    <ac:parameter ac:name=\"colour\">Orange</ac:parameter>\n    <ac:parameter ac:name=\"title\">Published</ac:parameter>\n  </ac:structured-macro></td>\n  <td><time datetime=\"2025-09-07\" /></td>\n  <td></td>\n")))) :=
    findCellBlock_concrete (str "\n  <td>Minor</td>\n  <td><h4>") (w ++ (mergedSegB ++ (natChars n ++ str "</a></td>\n  <td>alice (developer)</td>\n  <td></td>\n  <td><ac:structured-macro ac:name=\"status\" ac:schema-version=\"1\">\n    <ac:parameter ac:name=\"colour\">Orange</ac:parameter>\n    <ac:parameter ac:name=\"title\">Published</ac:parameter>\n  </ac:structured-macro></td>\n  <td><time datetime=\"2025-09-07\" /></td>\n  <td></td>\n"))) (str "\n  ")
      (str ">Minor</td>\n  <td><h4>") [] (str "Minor</td>\n  <td><h4>") (str "Minor")
      (str "\n  <td><h4>" ++ (w ++ (mergedSegB ++ (natChars n ++ str "</a></td>\n  <td>alice (developer)</td>\n  <td></td>\n  <td><ac:structured-macro ac:name=\"status\" ac:schema-version=\"1\">\n    <ac:parameter ac:name=\"colour\">Orange</ac:parameter>\n    <ac:parameter ac:name=\"title\">Published</ac:parameter>\n  </ac:structured-macro></td>\n  <td><time datetime=\"2025-09-07\" /></td>\n  <td></td>\n")))) (by decide) (by decide)
      (splitAtSubBy_found_append lowerEq (str "</td>") (str "Minor</td>\n  <td><h4>")
        (w ++ (mergedSegB ++ (natChars n ++ str "</a></td>\n  <td>alice (developer)</td>\n  <td></td>\n  <td><ac:structured-macro ac:name=\"status\" ac:schema-version=\"1\">\n    <ac:parameter ac:name=\"colour\">Orange</ac:parameter>\n    <ac:parameter ac:name=\"title\">Published</ac:parameter>\n  </ac:structured-macro></td>\n  <td><time datetime=\"2025-09-07\" /></td>\n  <td></td>\n"))) (str "Minor") (str "\n  <td><h4>") (by decide))
  have hC2 : findCellBlock (str "\n  <td><h4>" ++ (w ++ (mergedSegB ++ (natChars n ++ str "</a></td>\n  <td>alice (developer)</td>\n  <td></td>\n  <td><ac:structured-macro ac:name=\"status\" ac:schema-version=\"1\">\n    <ac:parameter ac:name=\"colour\">Orange</ac:parameter>\n    <ac:parameter ac:name=\"title\">Published</ac:parameter>\n  </ac:structured-macro></td>\n  <td><time datetime=\"2025-09-07\" /></td>\n  <td></td>\n")))) =
      some (str "<h4>" ++ (w ++ str "</h4>"), str "\n  <td><a href=\"https://example.com/pull/1\">#" ++ (natChars n ++ str "</a></td>\n  <td>alice (developer)</td>\n  <td></td>\n  <td><ac:structured-macro ac:name=\"status\" ac:schema-version=\"1\">\n    <ac:parameter ac:name=\"colour\">Orange</ac:parameter>\n    <ac:parameter ac:name=\"title\">Published</ac:parameter>\n  </ac:structured-macro></td>\n  <td><time datetime=\"2025-09-07\" /></td>\n  <td></td>\n")) :=
    findCellBlock_concrete (str "\n  <td><h4>") (w ++ (mergedSegB ++ (natChars n ++ str "</a></td>\n  <td>alice (developer)</td>\n  <td></td>\n  <td><ac:structured-macro ac:name=\"status\" ac:schema-version=\"1\">\n    <ac:parameter ac:name=\"colour\">Orange</ac:parameter>\n    <ac:parameter ac:name=\"title\">Published</ac:parameter>\n  </ac:structured-macro></td>\n  <td><time datetime=\"2025-09-07\" /></td>\n  <td></td>\n"))) (str "\n  ")
      (str "><h4>") [] (str "<h4>") (str "<h4>" ++ (w ++ str "</h4>"))
      (str "\n  <td><a href=\"https://example.com/pull/1\">#" ++ (natChars n ++ str "</a></td>\n  <td>alice (developer)</td>\n  <td></td>\n  <td><ac:structured-macro ac:name=\"status\" ac:schema-version=\"1\">\n    <ac:parameter ac:name=\"colour\">Orange</ac:parameter>\n    <ac:parameter ac:name=\"title\">Published</ac:parameter>\n  </ac:structured-macro></td>\n  <td><time datetime=\"2025-09-07\" /></td>\n  <td></td>\n")) (by decide) (by decide) h3c2
  have hC3 : findCellBlock (str "\n  <td><a href=\"https://example.com/pull/1\">#" ++ (natChars n ++ str "</a></td>\n  <td>alice (developer)</td>\n  <td></td>\n  <td><ac:structured-macro ac:name=\"status\" ac:schema-version=\"1\">\n    <ac:parameter ac:name=\"colour\">Orange</ac:parameter>\n    <ac:parameter ac:name=\"title\">Published</ac:parameter>\n  </ac:structured-macro></td>\n  <td><time datetime=\"2025-09-07\" /></td>\n  <td></td>\n")) =
      some (str "<a href=\"https://example.com/pull/1\">#" ++ (natChars n ++ str "</a>"), str "\n  <td>alice (developer)</td>\n  <td></td>\n  <td><ac:structured-macro ac:name=\"status\" ac:schema-version=\"1\">\n    <ac:parameter ac:name=\"colour\">Orange</ac:parameter>\n    <ac:parameter ac:name=\"title\">Published</ac:parameter>\n  </ac:structured-macro></td>\n  <td><time datetime=\"2025-09-07\" /></td>\n  <td></td>\n") :=
    findCellBlock_concrete (str "\n  <td><a href=\"https://example.com/pull/1\">#") (natChars n ++ str "</a></td>\n  <td>alice (developer)</td>\n  <td></td>\n  <td><ac:structured-macro ac:name=\"status\" ac:schema-version=\"1\">\n    <ac:parameter ac:name=\"colour\">Orange</ac:parameter>\n    <ac:parameter ac:name=\"title\">Published</ac:parameter>\n  </ac:structured-macro></td>\n  <td><time datetime=\"2025-09-07\" /></td>\n  <td></td>\n") (str "\n  ")
      (str "><a href=\"https://example.com/pull/1\">#") [] (str "<a href=\"https://example.com/pull/1\">#") (str "<a href=\"https://example.com/pull/1\">#" ++ (natChars n ++ str "</a>"))
      (str "\n  <td>alice (developer)</td>\n  <td></td>\n  <td><ac:structured-macro ac:name=\"status\" ac:schema-version=\"1\">\n    <ac:parameter ac:name=\"colour\">Orange</ac:parameter>\n    <ac:parameter ac:name=\"title\">Published</ac:parameter>\n  </ac:structured-macro></td>\n  <td><time datetime=\"2025-09-07\" /></td>\n  <td></td>\n") (by decide) (by decide) h3c3
  rw [collectCells_step _ _ _ hC1, collectCells_step _ _ _ hC2,
    collectCells_step _ _ _ hC3,
    show collectCells (str "\n  <td>alice (developer)</td>\n  <td></td>\n  <td><ac:structured-macro ac:name=\"status\" ac:schema-version=\"1\">\n    <ac:parameter ac:name=\"colour\">Orange</ac:parameter>\n    <ac:parameter ac:name=\"title\">Published</ac:parameter>\n  </ac:structured-macro></td>\n  <td><time datetime=\"2025-09-07\" /></td>\n  <td></td>\n") = [str "alice (developer)", [],
      statusPill, str "<time datetime=\"2025-09-07\" />", []] from by decide]

theorem findHashNumber_hash (cs : List Char) :
    findHashNumber ('#' :: cs) =
      if cs.takeWhile isDig = [] then findHashNumber cs
      else some (digitsVal (cs.takeWhile isDig)) := rfl

theorem roundVersionCell (w : List Char)
    (hwc : ∀ x ∈ w, isVerChar x = true) :
    extractVersionFromCell (str "<h4>" ++ (w ++ str "</h4>")) = w := by
  have hsplit : splitAtSubBy lowerEq (str "</h4>") (w ++ str "</h4>") =
      some (w, []) := by
    show splitAtSubBy lowerEq ('<' :: str "/h4>") (w ++ str "</h4>") =
      some (w, [])
    rw [splitAtSubBy_skip_chunk lowerEq '<' (str "/h4>") w (str "</h4>")
      (fun c hc => lowerEq_false_left '<' c (by decide) (hwc c hc))]
    rw [show splitAtSubBy lowerEq ('<' :: str "/h4>") (str "</h4>") =
      some ([], []) from by decide]
    simp
  have hcap : ∀ f, h4CaptureF (f + 1) (str "<h4>" ++ (w ++ str "</h4>")) =
      some w := by
    intro f
    unfold h4CaptureF splitTagOpenCI splitAtSubCI
    rw [splitAtSubBy_found_append lowerEq ('<' :: str "h4")
      (str "<h4>") (w ++ str "</h4>") [] (str ">") (by decide)]
    dsimp only
    rw [splitAtSubBy_found_append charEq ['>'] (str ">")
      (w ++ str "</h4>") [] [] (by decide)]
    dsimp only
    rw [List.nil_append]
    rw [hsplit]
    dsimp only
    rw [any_nl_false w hwc]
    rfl
  unfold extractVersionFromCell
  rw [hcap (str "<h4>" ++ (w ++ str "</h4>")).length]
  dsimp only
  exact trimChars_no_ws w (fun c hc => isWs_false_of_isVerChar c (hwc c hc))

theorem roundPRCell (n : Nat) :
    findHashNumber (trimChars (stripTags (str "<a href=\"https://example.com/pull/1\">#" ++
      (natChars n ++ str "</a>")))) = some n := by
  have hchunk : ∀ c ∈ '#' :: natChars n, ¬c = '<' := by
    intro c hc
    rw [List.mem_cons] at hc
    rcases hc with hc | hc
    · subst hc; decide
    · intro he
      subst he
      exact absurd (natChars_digits n '<' hc) (by decide)
  have hws : ∀ c ∈ '#' :: natChars n, isWs c = false := by
    intro c hc
    rw [List.mem_cons] at hc
    rcases hc with hc | hc
    · subst hc; rfl
    · exact isWs_false_of_isDig c (natChars_digits n c hc)
  have hstrip : stripTags (str "<a href=\"https://example.com/pull/1\">#" ++ (natChars n ++ str "</a>")) =
      '#' :: natChars n := by
    rw [show str "<a href=\"https://example.com/pull/1\">#" ++ (natChars n ++ str "</a>") =
      '<' :: (str "a href=\"https://example.com/pull/1\">#" ++ (natChars n ++ str "</a>")) from rfl]
    rw [stripTags_tag _ _ _ (splitAtSubBy_found_append charEq ['>']
      (str "a href=\"https://example.com/pull/1\">#") (natChars n ++ str "</a>") (str "a href=\"https://example.com/pull/1\"")
      (str "#") (by decide))]
    rw [show str "#" ++ (natChars n ++ str "</a>") =
      ('#' :: natChars n) ++ str "</a>" from rfl]
    rw [stripTags_chunk ('#' :: natChars n) (str "</a>") hchunk]
    rw [show stripTags (str "</a>") = ([] : List Char) from by decide]
    rw [List.append_nil]
  rw [hstrip]
  rw [trimChars_no_ws ('#' :: natChars n) hws]
  rw [findHashNumber_hash]
  rw [takeWhile_eq_self_of isDig (natChars n) (natChars_digits n)]
  rw [if_neg (natChars_ne_nil n)]
  rw [digitsVal_natChars n]

theorem roundTh (n : Nat) (w : List Char)
    (hwc : ∀ x ∈ w, isVerChar x = true) (hwne : w ≠ []) :
    containsSub (str "<th") (str "\n  <td>Minor</td>\n  <td><h4>" ++ (w ++ (mergedSegB ++ (natChars n ++ str "</a></td>\n  <td>alice (developer)</td>\n  <td></td>\n  <td><ac:structured-macro ac:name=\"status\" ac:schema-version=\"1\">\n    <ac:parameter ac:name=\"colour\">Orange</ac:parameter>\n    <ac:parameter ac:name=\"title\">Published</ac:parameter>\n  </ac:structured-macro></td>\n  <td><time datetime=\"2025-09-07\" /></td>\n  <td></td>\n")))) = false := by
  unfold containsSub
  rw [show splitAtSubBy charEq (str "<th") (str "\n  <td>Minor</td>\n  <td><h4>" ++ (w ++ (mergedSegB ++ (natChars n ++ str "</a></td>\n  <td>alice (developer)</td>\n  <td></td>\n  <td><ac:structured-macro ac:name=\"status\" ac:schema-version=\"1\">\n    <ac:parameter ac:name=\"colour\">Orange</ac:parameter>\n    <ac:parameter ac:name=\"title\">Published</ac:parameter>\n  </ac:structured-macro></td>\n  <td><time datetime=\"2025-09-07\" /></td>\n  <td></td>\n")))) =
      none from by
    show splitAtSubBy charEq ('<' :: str "th")
      (str "\n  <td>Minor</td>\n  <td><h4>" ++ (w ++ (mergedSegB ++ (natChars n ++ str "</a></td>\n  <td>alice (developer)</td>\n  <td></td>\n  <td><ac:structured-macro ac:name=\"status\" ac:schema-version=\"1\">\n    <ac:parameter ac:name=\"colour\">Orange</ac:parameter>\n    <ac:parameter ac:name=\"title\">Published</ac:parameter>\n  </ac:structured-macro></td>\n  <td><time datetime=\"2025-09-07\" /></td>\n  <td></td>\n")))) = none
    rw [splitAtSubBy_M charEq '<' (str "th") (str "\n  <td>Minor</td>\n  <td><h4>") w mergedSegB
      (natChars n) (str "</a></td>\n  <td>alice (developer)</td>\n  <td></td>\n  <td><ac:structured-macro ac:name=\"status\" ac:schema-version=\"1\">\n    <ac:parameter ac:name=\"colour\">Orange</ac:parameter>\n    <ac:parameter ac:name=\"title\">Published</ac:parameter>\n  </ac:structured-macro></td>\n  <td><time datetime=\"2025-09-07\" /></td>\n  <td></td>\n")
      (verChar_all_charEq ('<' :: str "th") (by decide) w hwc) hwne
      (verChar_all_charEq ('<' :: str "th") (by decide) (natChars n)
        (natChars_verChars n)) (natChars_ne_nil n) (by decide) (by decide)]
    rw [show splitAtSubBy charEq ('<' :: str "th") (str "</a></td>\n  <td>alice (developer)</td>\n  <td></td>\n  <td><ac:structured-macro ac:name=\"status\" ac:schema-version=\"1\">\n    <ac:parameter ac:name=\"colour\">Orange</ac:parameter>\n    <ac:parameter ac:name=\"title\">Published</ac:parameter>\n  </ac:structured-macro></td>\n  <td><time datetime=\"2025-09-07\" /></td>\n  <td></td>\n") = none
      from by decide]
    rfl]
  rfl

theorem roundEntry (n : Nat) (w : List Char)
    (hwc : ∀ x ∈ w, isVerChar x = true) (hwne : w ≠ []) :
    entryOfRow (str "\n  <td>Minor</td>\n  <td><h4>" ++ (w ++ (mergedSegB ++ (natChars n ++ str "</a></td>\n  <td>alice (developer)</td>\n  <td></td>\n  <td><ac:structured-macro ac:name=\"status\" ac:schema-version=\"1\">\n    <ac:parameter ac:name=\"colour\">Orange</ac:parameter>\n    <ac:parameter ac:name=\"title\">Published</ac:parameter>\n  </ac:structured-macro></td>\n  <td><time datetime=\"2025-09-07\" /></td>\n  <td></td>\n")))) =
      some ⟨w, str "07/09/2025", mkDate 2025 9 7, some n⟩ := by
  have hCellVne : str "<h4>" ++ (w ++ str "</h4>") ≠ [] := by
    rw [show str "<h4>" ++ (w ++ str "</h4>") =
      '<' :: (str "h4>" ++ (w ++ str "</h4>")) from rfl]
    exact List.cons_ne_nil _ _
  have htime : (str "<time datetime=\"2025-09-07\" />" : List Char) ≠ [] := by decide
  unfold entryOfRow
  rw [roundTh n w hwc hwne]
  rw [if_neg (by simp)]
  rw [roundCells n w hwc hwne]
  dsimp only
  rw [show List.getD ([str "Minor", str "<h4>" ++ (w ++ str "</h4>"), str "<a href=\"https://example.com/pull/1\">#" ++ (natChars n ++ str "</a>"), str "alice (developer)", [], statusPill, str "<time datetime=\"2025-09-07\" />", []]) 1 ([] : List Char) = str "<h4>" ++ (w ++ str "</h4>") from rfl]
  rw [show List.getD ([str "Minor", str "<h4>" ++ (w ++ str "</h4>"), str "<a href=\"https://example.com/pull/1\">#" ++ (natChars n ++ str "</a>"), str "alice (developer)", [], statusPill, str "<time datetime=\"2025-09-07\" />", []]) 6 ([] : List Char) =
    str "<time datetime=\"2025-09-07\" />" from rfl]
  rw [show List.getD ([str "Minor", str "<h4>" ++ (w ++ str "</h4>"), str "<a href=\"https://example.com/pull/1\">#" ++ (natChars n ++ str "</a>"), str "alice (developer)", [], statusPill, str "<time datetime=\"2025-09-07\" />", []]) 2 ([] : List Char) = str "<a href=\"https://example.com/pull/1\">#" ++ (natChars n ++ str "</a>") from rfl]
  rw [if_neg (by simp : ¬(([str "Minor", str "<h4>" ++ (w ++ str "</h4>"), str "<a href=\"https://example.com/pull/1\">#" ++ (natChars n ++ str "</a>"), str "alice (developer)", [], statusPill, str "<time datetime=\"2025-09-07\" />", []] : List (List Char)).length ≤ 6))]
  rw [if_neg (by simp [hCellVne, htime])]
  rw [roundVersionCell w hwc]
  rw [show extractDateFromCell (str "<time datetime=\"2025-09-07\" />") = str "07/09/2025"
    from by decide]
  rw [roundPRCell n]
  rw [show parseTableDate (str "07/09/2025") = some (mkDate 2025 9 7)
    from by decide]
  dsimp only
  rw [if_neg (by simp [hwne, show (str "07/09/2025" : List Char) ≠ []
    from by decide])]

theorem roundParse (n : Nat) (w : List Char)
    (hwc : ∀ x ∈ w, isVerChar x = true) (hwne : w ≠ []) :
    getLatestEntryFromTable (mergedSegA ++ (w ++ (mergedSegB ++
      (natChars n ++ mergedSegC)))) =
      ⟨w, str "07/09/2025",
        [⟨w, str "07/09/2025", mkDate 2025 9 7, some n⟩]⟩ := by
  unfold getLatestEntryFromTable
  rw [roundTable n w hwc hwne]
  dsimp only
  rw [roundRows n w hwc hwne]
  rw [List.filterMap_cons, List.filterMap_cons, List.filterMap_nil]
  rw [show entryOfRow (str "\n    <th>Type</th>\n    <th>Version</th>\n    <th>PR</th>\n    <th>Developer / QA</th>\n    <th>Change Log</th>\n    <th>Status</th>\n    <th>Release Date</th>\n    <th>Artifact Link</th>\n  ") = none from by decide]
  rw [roundEntry n w hwc hwne]
  dsimp only
  rw [if_neg (by simp)]
  rw [show sortEntries [(⟨w, str "07/09/2025", mkDate 2025 9 7, some n⟩ :
    TableEntry)] = [⟨w, str "07/09/2025", mkDate 2025 9 7, some n⟩] from rfl]

/-- C6 (corrected): for every change-request number `n` and every version
identifier (a nonempty dot-separated numeral list `v`, rendered `verStr v`),
formatting the single admitted change request `prRT n` — whose rendered text
cells are free of table markup — into a document with no table yields the
merged document `mergedSegA ++ verStr v ++ mergedSegB ++ natChars n ++
mergedSegC`, and parsing that document back recovers exactly one entry whose
change-request number is the original `n` and whose version is literally
`verStr v`, hence comparator-equal (`compareVersions = 0`) to the version
that was written. -/
theorem roundtrip_format_parse (n : Nat) (v : List Nat) (hv : v ≠ []) :
    appendPRsToContent (fun pr => (verStr v, pr)) now0 [] [prRT n] =
      some (mergedSegA ++ (verStr v ++ (mergedSegB ++
        (natChars n ++ mergedSegC)))) ∧
    getLatestEntryFromTable (mergedSegA ++ (verStr v ++ (mergedSegB ++
      (natChars n ++ mergedSegC)))) =
      ⟨verStr v, str "07/09/2025",
        [⟨verStr v, str "07/09/2025", mkDate 2025 9 7, some n⟩]⟩ ∧
    compareVersions
      (getLatestEntryFromTable (mergedSegA ++ (verStr v ++ (mergedSegB ++
        (natChars n ++ mergedSegC))))).version (verStr v) = 0 := by
  have hwc := verStr_chars v
  have hwne := verStr_ne_nil v hv
  refine ⟨?_, roundParse n (verStr v) hwc hwne, ?_⟩
  · obtain ⟨c, t, hct⟩ := List.exists_cons_of_ne_nil hwne
    rw [hct]
    exact append_row n c t
  · rw [roundParse n (verStr v) hwc hwne]
    exact compareVersions_self (verStr v)

/-- C6 witness: the round trip at change request number 42 and version
`1.2.3`. -/
theorem roundtrip_format_parse_witness :
    appendPRsToContent (fun pr => (verStr [1, 2, 3], pr)) now0 [] [prRT 42] =
      some (mergedSegA ++ (verStr [1, 2, 3] ++ (mergedSegB ++
        (natChars 42 ++ mergedSegC)))) ∧
    getLatestEntryFromTable (mergedSegA ++ (verStr [1, 2, 3] ++
      (mergedSegB ++ (natChars 42 ++ mergedSegC)))) =
      ⟨verStr [1, 2, 3], str "07/09/2025",
        [⟨verStr [1, 2, 3], str "07/09/2025", mkDate 2025 9 7, some 42⟩]⟩ ∧
    compareVersions
      (getLatestEntryFromTable (mergedSegA ++ (verStr [1, 2, 3] ++
        (mergedSegB ++ (natChars 42 ++ mergedSegC))))).version
      (verStr [1, 2, 3]) = 0 :=
  roundtrip_format_parse 42 [1, 2, 3] (by decide)
